import Mathlib

/-!
# EVS message model and wire codec

Shallow embedding of `galeracomm/vs/src/evs_message.hpp`: the view identifier
`EVSViewId`, the records `EVSRange` and `EVSGap`, the message class `EVSMessage`
with its five constructors, its accessors and mutators, the serialisation members
`read`, `write`, `size`, `get_hdr`, `get_hdrlen`, and the function `equal`.

Conventions of the embedding.

* A `void* buf` is a byte memory `Buf = Nat → Nat`; cell `i` is the byte at
  `buf + i`. Every store keeps `x % 256` and every load yields `x % 256`.
* `size_t` is 64 bits wide: the additions the header performs on offsets are taken
  modulo `SIZE_MOD = 2 ^ 64`.
* `uint8_t` / `uint32_t` members are natural numbers; `EVSMessage.wf` states that
  they are within the range of their type. `int version` is kept as its bit
  pattern, an enumeration as its underlying value.
* A member function that mutates its object returns the new object; a function
  returning `size_t` with `0` for failure returns that number.
* A constructor that throws `FatalException` returns `Except.error`; a member
  function that can throw returns its outcome together with the object, or the
  memory, after the call.
* The scratch array `hdrbuf` of a message is not a member of the structure: `get_hdr`
  takes it as a memory of its own.
-/

namespace Evs

/-! ## Memory -/

/-- Byte memory reachable from a buffer pointer. -/
abbrev Buf := Nat → Nat

/-- Number of values of `size_t`. -/
def SIZE_MOD : Nat := 2 ^ 64

/-- The call `memcpy(buf + off, src, src.length)`. -/
def memcpy_to (buf : Buf) (off : Nat) (src : List Nat) : Buf :=
  fun i => if off ≤ i ∧ i < off + src.length then src.getD (i - off) 0 % 256 else buf i

/-- The call `memcpy(dst, buf + off, n)`, returning the new content of `dst`. -/
def memcpy_from (buf : Buf) (off n : Nat) : List Nat :=
  (List.range n).map (fun i => buf (off + i) % 256)

/-! ## Integer helpers of gcomm -/

/-- Byte order of the multi-byte integer fields. The header does not fix it (it is
decided inside `write_uint32` / `read_uint32`), so the codec takes it as a parameter. -/
inductive ByteOrder where
  | big
  | little
deriving DecidableEq, Repr

/-- The four bytes of a 32-bit value, in memory order. -/
def uint32_bytes : ByteOrder → Nat → List Nat
  | .big, v => [v / 2 ^ 24 % 256, v / 2 ^ 16 % 256, v / 2 ^ 8 % 256, v % 256]
  | .little, v => [v % 256, v / 2 ^ 8 % 256, v / 2 ^ 16 % 256, v / 2 ^ 24 % 256]

/-- The 32-bit value held by bytes given in memory order. -/
def uint32_of_bytes : ByteOrder → List Nat → Nat
  | .big, l => l.foldl (fun acc b => acc * 256 + b % 256) 0
  | .little, l => l.foldr (fun b acc => b % 256 + 256 * acc) 0

/-- Modelled from the spec: `read_uint8` of gcomm, whose definition is not in src.
"Every encode/decode operation takes an explicit buffer and offset and returns either
the new offset or an explicit failure signal (buffer too short to hold the next
field)"; the failure signal is `0` and the destination is left as it was. -/
def read_uint8 (buf : Buf) (buflen offset : Nat) (dst : Nat) : Nat × Nat :=
  if offset + 1 > buflen then (0, dst) else (offset + 1, buf offset % 256)

/-- Modelled from the spec: `write_uint8` of gcomm, whose definition is not in src;
same contract as `read_uint8`, the buffer is untouched on failure. -/
def write_uint8 (b : Nat) (buf : Buf) (buflen offset : Nat) : Nat × Buf :=
  if offset + 1 > buflen then (0, buf) else (offset + 1, memcpy_to buf offset [b])

/-- Modelled from the spec: `read_uint32` of gcomm, whose definition is not in src;
a fixed four-byte field in the one byte order of the codec. -/
def read_uint32 (bo : ByteOrder) (buf : Buf) (buflen offset : Nat) (dst : Nat) : Nat × Nat :=
  if offset + 4 > buflen then (0, dst) else (offset + 4, uint32_of_bytes bo (memcpy_from buf offset 4))

/-- Modelled from the spec: `write_uint32` of gcomm, whose definition is not in src;
a fixed four-byte field in the one byte order of the codec. -/
def write_uint32 (bo : ByteOrder) (v : Nat) (buf : Buf) (buflen offset : Nat) : Nat × Buf :=
  if offset + 4 > buflen then (0, buf) else (offset + 4, memcpy_to buf offset (uint32_bytes bo v))

/-! ## Node address -/

/-- Modelled from the spec: `Address` (`EVSPid`) of gcomm/address.hpp, which is not in
src. "NodeId - opaque, comparable, orderable, fixed-size address"; its encoding is
`sizeof(NodeId)` raw bytes, here the bytes `raw`. -/
structure Address where
  raw : List Nat
deriving DecidableEq, Repr

/-- Modelled from the spec: `Address::size`, the fixed encoded size of a NodeId. -/
def Address.size (self : Address) : Nat := self.raw.length

/-- Modelled from the spec: `Address::write`, the NodeId encoding with the bound
contract of every encode operation (new offset, or `0` and nothing written). -/
def Address.write (self : Address) (buf : Buf) (buflen offset : Nat) : Nat × Buf :=
  if offset + self.size > buflen then (0, buf) else (offset + self.size, memcpy_to buf offset self.raw)

/-- Modelled from the spec: `Address::read`, the NodeId decoding with the bound
contract of every decode operation (new offset, or `0` and the object unchanged). -/
def Address.read (self : Address) (buf : Buf) (buflen offset : Nat) : Nat × Address :=
  if offset + self.size > buflen then (0, self)
  else (offset + self.size, { raw := memcpy_from buf offset self.size })

/-- Range of the address type: its bytes are bytes. -/
def Address.wf (self : Address) : Prop := ∀ b ∈ self.raw, b < 256

instance (a : Address) : Decidable a.wf := by
  unfold Address.wf; infer_instance

/-! ## EVSViewId -/

/-- The class `EVSViewId`: `uint8_t uuid[8]`. -/
structure EVSViewId where
  uuid : List Nat
deriving DecidableEq, Repr

/-- Range of the type: eight bytes. -/
def EVSViewId.wf (self : EVSViewId) : Prop := self.uuid.length = 8 ∧ ∀ b ∈ self.uuid, b < 256

instance (v : EVSViewId) : Decidable v.wf := by
  unfold EVSViewId.wf; infer_instance

/-- The default constructor `EVSViewId()`: `memset(uuid, 0, 8)`. -/
def EVSViewId.zero : EVSViewId := { uuid := List.replicate 8 0 }

/-- The member `EVSViewId::read`. -/
def EVSViewId.read (self : EVSViewId) (buf : Buf) (buflen offset : Nat) : Nat × EVSViewId :=
  if (offset + 8) % SIZE_MOD > buflen then (0, self)
  else ((offset + 8) % SIZE_MOD, { uuid := memcpy_from buf offset 8 })

/-- The member `EVSViewId::write`. -/
def EVSViewId.write (self : EVSViewId) (buf : Buf) (buflen offset : Nat) : Nat × Buf :=
  if (offset + 8) % SIZE_MOD > buflen then (0, buf)
  else ((offset + 8) % SIZE_MOD, memcpy_to buf offset (self.uuid.take 8))

/-- The member `EVSViewId::size`. -/
def EVSViewId.size (_self : EVSViewId) : Nat := 8

/-! ## EVSRange, EVSGap -/

/-- The struct `EVSRange`. -/
structure EVSRange where
  low : Nat
  high : Nat
deriving DecidableEq, Repr

/-- The default constructor `EVSRange()`; `SEQNO_MAX` (evs_seqno.hpp) is not in src
and is a parameter. -/
def EVSRange.dflt (SEQNO_MAX : Nat) : EVSRange := { low := SEQNO_MAX, high := SEQNO_MAX }

/-- The struct `EVSGap`. -/
structure EVSGap where
  source : Address
  range : EVSRange
deriving DecidableEq, Repr

/-- The default constructor `EVSGap()`; `addr0` is the default-constructed `Address`. -/
def EVSGap.dflt (SEQNO_MAX : Nat) (addr0 : Address) : EVSGap :=
  { source := addr0, range := EVSRange.dflt SEQNO_MAX }

/-- The member `EVSGap::get_source`. -/
def EVSGap.get_source (self : EVSGap) : Address := self.source

/-- The member `EVSGap::get_low`. -/
def EVSGap.get_low (self : EVSGap) : Nat := self.range.low

/-- The member `EVSGap::get_high`. -/
def EVSGap.get_high (self : EVSGap) : Nat := self.range.high

/-! ## Enumerations -/

/-- The enumerator `DROP` of `EVSSafetyPrefix`. -/
def DROP : Nat := 0
/-- The enumerator `UNRELIABLE` of `EVSSafetyPrefix`. -/
def UNRELIABLE : Nat := 1
/-- The enumerator `FIFO` of `EVSSafetyPrefix`. -/
def FIFO : Nat := 2
/-- The enumerator `AGREED` of `EVSSafetyPrefix`. -/
def AGREED : Nat := 3
/-- The enumerator `SAFE` of `EVSSafetyPrefix`. -/
def SAFE : Nat := 4

/-- The enumerator `USER` of `EVSMessage::Type`. -/
def USER : Nat := 0
/-- The enumerator `DELEGATE` of `EVSMessage::Type`. -/
def DELEGATE : Nat := 1
/-- The enumerator `GAP` of `EVSMessage::Type`. -/
def GAP : Nat := 2
/-- The enumerator `JOIN` of `EVSMessage::Type`. -/
def JOIN : Nat := 3
/-- The enumerator `LEAVE` of `EVSMessage::Type`. -/
def LEAVE : Nat := 4
/-- The enumerator `INSTALL` of `EVSMessage::Type`. -/
def INSTALL : Nat := 5

/-! ## EVSMessage -/

/-- The data members of `EVSMessage`. A pointer member is `none` when null; the map
and the sets are kept as lists of their entries. -/
structure EVSMessage where
  version : Nat
  type : Nat
  safety_prefix : Nat
  seq : Nat
  seq_range : Nat
  aru_seq : Nat
  flags : Nat
  source_view : EVSViewId
  source : Address
  gap : EVSGap
  oper_inst : Option (List (Address × EVSRange))
  untr_inst : Option (List Address)
  unop_inst : Option (List Address)
deriving DecidableEq, Repr

/-- Range of the member types of a message: the enumerations fit the nibble the codec
gives them, `uint8_t` and `uint32_t` members are in range, the view id is eight bytes. -/
def EVSMessage.wf (self : EVSMessage) : Prop :=
  self.type < 16 ∧ self.safety_prefix < 16 ∧ self.seq < 2 ^ 32 ∧ self.seq_range < 256 ∧
  self.aru_seq < 2 ^ 32 ∧ self.flags < 256 ∧ self.source_view.wf ∧ self.source.wf

instance (m : EVSMessage) : Decidable m.wf := by
  unfold EVSMessage.wf; infer_instance

/-- The default constructor `EVSMessage() : seq(SEQNO_MAX) {}`. The members without an
initialiser keep what the storage `raw` held; the class-type members are default
constructed. -/
def EVSMessage.dflt (raw : EVSMessage) (SEQNO_MAX : Nat) (addr0 : Address) : EVSMessage :=
  { raw with
    seq := SEQNO_MAX
    source_view := EVSViewId.zero
    source := addr0
    gap := EVSGap.dflt SEQNO_MAX addr0 }

/-- The user-message constructor. -/
def EVSMessage.user (raw : EVSMessage) (SEQNO_MAX : Nat) (addr0 : Address)
    (type_ sp_ seq_ seq_range_ aru_seq_ : Nat) (vid_ : EVSViewId) (flags_ : Nat) :
    Except String EVSMessage :=
  let self : EVSMessage :=
    { raw with
      version := 0
      type := type_
      safety_prefix := sp_
      seq := seq_
      seq_range := seq_range_
      aru_seq := aru_seq_
      flags := flags_
      source_view := vid_
      source := addr0
      gap := EVSGap.dflt SEQNO_MAX addr0
      oper_inst := none
      untr_inst := none
      unop_inst := none }
  if self.type ≠ USER then Except.error "Invalid type" else Except.ok self

/-- The delegate-message constructor. -/
def EVSMessage.delegate (raw : EVSMessage) (SEQNO_MAX : Nat) (addr0 : Address)
    (type_ : Nat) (source_ : Address) : Except String EVSMessage :=
  let self : EVSMessage :=
    { raw with
      type := type_
      source_view := EVSViewId.zero
      source := source_
      gap := EVSGap.dflt SEQNO_MAX addr0
      oper_inst := none
      untr_inst := none
      unop_inst := none }
  if self.type ≠ DELEGATE then Except.error "Invalid type" else Except.ok self

/-- The gap-message constructor. -/
def EVSMessage.gapmsg (raw : EVSMessage) (addr0 : Address)
    (type_ seq_ : Nat) (gap_ : EVSGap) : Except String EVSMessage :=
  let self : EVSMessage :=
    { raw with
      type := type_
      seq := seq_
      source_view := EVSViewId.zero
      source := addr0
      gap := gap_
      oper_inst := none
      untr_inst := none
      unop_inst := none }
  if self.type ≠ GAP then Except.error "Invalid type" else Except.ok self

/-- The constructor of join and install messages. -/
def EVSMessage.join (raw : EVSMessage) (SEQNO_MAX : Nat) (addr0 : Address)
    (type_ : Nat) (vid_ : EVSViewId) (aru_seq_ safe_seq_ : Nat) : Except String EVSMessage :=
  let self : EVSMessage :=
    { raw with
      type := type_
      seq := safe_seq_
      aru_seq := aru_seq_
      source_view := vid_
      source := addr0
      gap := EVSGap.dflt SEQNO_MAX addr0 }
  if self.type ≠ JOIN ∧ self.type ≠ INSTALL then Except.error "Invalid type"
  else Except.ok { self with oper_inst := some [], untr_inst := some [], unop_inst := some [] }

/-- The leave-message constructor. -/
def EVSMessage.leave (raw : EVSMessage) (SEQNO_MAX : Nat) (addr0 : Address)
    (type_ : Nat) (vid_ : EVSViewId) : Except String EVSMessage :=
  let self : EVSMessage :=
    { raw with
      type := type_
      source_view := vid_
      source := addr0
      gap := EVSGap.dflt SEQNO_MAX addr0 }
  if self.type ≠ LEAVE then Except.error "Invalid type" else Except.ok self

/-- The member `get_type`. -/
def EVSMessage.get_type (self : EVSMessage) : Nat := self.type
/-- The member `get_safety_prefix`. -/
def EVSMessage.get_safety_prefix (self : EVSMessage) : Nat := self.safety_prefix
/-- The member `get_source`. -/
def EVSMessage.get_source (self : EVSMessage) : Address := self.source
/-- The member `get_seq`. -/
def EVSMessage.get_seq (self : EVSMessage) : Nat := self.seq
/-- The member `get_seq_range`. -/
def EVSMessage.get_seq_range (self : EVSMessage) : Nat := self.seq_range
/-- The member `get_aru_seq`. -/
def EVSMessage.get_aru_seq (self : EVSMessage) : Nat := self.aru_seq
/-- The member `get_flags`. -/
def EVSMessage.get_flags (self : EVSMessage) : Nat := self.flags
/-- The member `get_source_view`. -/
def EVSMessage.get_source_view (self : EVSMessage) : EVSViewId := self.source_view
/-- The member `get_gap`. -/
def EVSMessage.get_gap (self : EVSMessage) : EVSGap := self.gap
/-- The member `get_operational`. -/
def EVSMessage.get_operational (self : EVSMessage) : Option (List (Address × EVSRange)) :=
  self.oper_inst

/-- The member `EVSMessage::read`: the returned number is the new offset or `0`, the
returned message is the object after the call. -/
def EVSMessage.read (bo : ByteOrder) (self : EVSMessage) (buf : Buf) (buflen offset : Nat) :
    Nat × EVSMessage :=
  let r := read_uint8 buf buflen offset 0
  if r.1 = 0 then (0, self) else
  let b := r.2
  let self := { self with version := b &&& 0xf, type := (b >>> 4) &&& 0xf }
  if self.type = USER then
    let r := read_uint8 buf buflen r.1 b
    if r.1 = 0 then (0, self) else
    let self := { self with safety_prefix := r.2 &&& 0xf }
    let r := read_uint8 buf buflen r.1 self.seq_range
    let self := { self with seq_range := r.2 }
    if r.1 = 0 then (0, self) else
    let r := read_uint8 buf buflen r.1 self.flags
    let self := { self with flags := r.2 }
    if r.1 = 0 then (0, self) else
    let r := read_uint32 bo buf buflen r.1 self.seq
    let self := { self with seq := r.2 }
    if r.1 = 0 then (0, self) else
    let r := read_uint32 bo buf buflen r.1 self.aru_seq
    let self := { self with aru_seq := r.2 }
    if r.1 = 0 then (0, self) else
    let r := self.source_view.read buf buflen r.1
    let self := { self with source_view := r.2 }
    if r.1 = 0 then (0, self) else
    (r.1, self)
  else if self.type = DELEGATE then
    let off := (r.1 + 3) % SIZE_MOD
    let r := self.source.read buf buflen off
    let self := { self with source := r.2 }
    if r.1 = 0 then (0, self) else
    (off, self)
  else
    (r.1, self)

/-- The loop `for (i = 0; i < n; ++i) if ((off = write_uint8(0, ...)) == 0) return 0;`
of `write`: the offset after the loop, or `0` as soon as one store fails. -/
def write_padding : Nat → Buf → Nat → Nat → Nat × Buf
  | 0, buf, _, off => (off, buf)
  | n + 1, buf, buflen, off =>
    let r := write_uint8 0 buf buflen off
    if r.1 = 0 then (0, r.2) else write_padding n r.2 buflen r.1

/-- The member `EVSMessage::write`: the returned number is the new offset or `0`, the
returned memory is the buffer after the call. -/
def EVSMessage.write (bo : ByteOrder) (self : EVSMessage) (buf : Buf) (buflen offset : Nat) :
    Nat × Buf :=
  let b := (self.version &&& 0xf) ||| ((self.type <<< 4) &&& 0xf0)
  let r := write_uint8 b buf buflen offset
  if r.1 = 0 then (0, r.2) else
  if self.type = USER then
    let b := self.safety_prefix &&& 0xf
    let r := write_uint8 b r.2 buflen r.1
    if r.1 = 0 then (0, r.2) else
    let r := write_uint8 self.seq_range r.2 buflen r.1
    if r.1 = 0 then (0, r.2) else
    let r := write_uint8 self.flags r.2 buflen r.1
    if r.1 = 0 then (0, r.2) else
    let r := write_uint32 bo self.seq r.2 buflen r.1
    if r.1 = 0 then (0, r.2) else
    let r := write_uint32 bo self.aru_seq r.2 buflen r.1
    if r.1 = 0 then (0, r.2) else
    let r := self.source_view.write r.2 buflen r.1
    if r.1 = 0 then (0, r.2) else
    (r.1, r.2)
  else if self.type = DELEGATE then
    let r := write_padding 3 r.2 buflen r.1
    if r.1 = 0 then (0, r.2) else
    let r := self.source.write r.2 buflen r.1
    if r.1 = 0 then (0, r.2) else
    (r.1, r.2)
  else
    (r.1, r.2)

/-- The member `EVSMessage::size`. -/
def EVSMessage.size (self : EVSMessage) : Nat :=
  if self.type = USER then (4 + 4 + 4 + self.source_view.size) % SIZE_MOD
  else if self.type = DELEGATE then (4 + self.source.size) % SIZE_MOD
  else 0

/-! ## Write followed by read -/

/-- The call `m0.read(buf, buflen, offset)` on the buffer `m.write(buf, buflen, offset)`
has left. -/
def read_back (bo : ByteOrder) (m m0 : EVSMessage) (buf : Buf) (buflen offset : Nat) :
    Nat × EVSMessage :=
  EVSMessage.read bo m0 (m.write bo buf buflen offset).2 buflen offset

/-! ## Sample values -/

/-- A memory of zero bytes. -/
def zeroBuf : Buf := fun _ => 0

/-- The memory holding the bytes of a list, zero elsewhere. -/
def bufOf (l : List Nat) : Buf := fun i => l.getD i 0

/-- A sample value for the constant `SEQNO_MAX`. -/
def seqnoMaxS : Nat := 0xffffffff

/-- A sample four-byte address, standing for the default-constructed one. -/
def addrNil : Address := { raw := [0, 0, 0, 0] }

/-- A sample four-byte address of a node. -/
def addrA : Address := { raw := [10, 0, 0, 1] }

/-- A view id with sequence 7 and discriminator bytes `de ad be ef`. -/
def view7 (bo : ByteOrder) : EVSViewId := { uuid := [0xde, 0xad, 0xbe, 0xef] ++ uint32_bytes bo 7 }

/-- Storage content before a constructor runs, used by the examples: the members a
constructor does not initialise keep these values. -/
def raw0 : EVSMessage :=
  { version := 9, type := 7, safety_prefix := 6, seq := 1000, seq_range := 11, aru_seq := 2000,
    flags := 12, source_view := EVSViewId.zero, source := addrNil,
    gap := EVSGap.dflt seqnoMaxS addrNil,
    oper_inst := none, untr_inst := none, unop_inst := none }

/-- The user message of the worked example, as its constructor builds it: SAFE, seq 42,
seq_range 3, aru_seq 40, flags 0, view sequence 7. -/
def sampleUser (bo : ByteOrder) : EVSMessage :=
  { version := 0, type := USER, safety_prefix := SAFE, seq := 42, seq_range := 3,
    aru_seq := 40, flags := 0, source_view := view7 bo, source := addrNil,
    gap := EVSGap.dflt seqnoMaxS addrNil,
    oper_inst := none, untr_inst := none, unop_inst := none }

/-- A delegate message for the node `addrA`, as its constructor builds it in `raw0`. -/
def sampleDelegate : EVSMessage :=
  { raw0 with type := DELEGATE, source := addrA }

/-- The gap message of the worked example, as its constructor builds it in `raw0`:
seq 5, gap of node `addrA` with range 10 .. 20. -/
def sampleGap : EVSMessage :=
  { raw0 with type := GAP, seq := 5, gap := { source := addrA, range := { low := 10, high := 20 } } }

/-- A join message as its constructor builds it in `raw0`: view sequence 7, aru_seq 20,
safe seq 30, empty membership collections; its version is what the storage held. -/
def sampleJoin : EVSMessage :=
  { raw0 with
    type := JOIN, seq := 30, aru_seq := 20, source_view := view7 ByteOrder.big,
    oper_inst := some [], untr_inst := some [], unop_inst := some [] }

/-- The object a decoder reads into: a default-constructed message. -/
def sampleFresh : EVSMessage := EVSMessage.dflt raw0 seqnoMaxS addrNil

/-! ## Closed forms of the codec on a long enough buffer -/

/-- The memory after a successful `write` of a user message. -/
def userImage (bo : ByteOrder) (m : EVSMessage) (buf : Buf) (offset : Nat) : Buf :=
  memcpy_to (memcpy_to (memcpy_to (memcpy_to (memcpy_to (memcpy_to (memcpy_to buf
    offset [(m.version &&& 0xf) ||| ((m.type <<< 4) &&& 0xf0)])
    (offset + 1) [m.safety_prefix &&& 0xf])
    (offset + 2) [m.seq_range])
    (offset + 3) [m.flags])
    (offset + 4) (uint32_bytes bo m.seq))
    (offset + 8) (uint32_bytes bo m.aru_seq))
    (offset + 12) (m.source_view.uuid.take 8)

/-- The object after a successful `read` of a user message. -/
def userDecoded (bo : ByteOrder) (m0 : EVSMessage) (buf : Buf) (offset : Nat) : EVSMessage :=
  { m0 with
    version := (buf offset % 256) &&& 0xf
    type := ((buf offset % 256) >>> 4) &&& 0xf
    safety_prefix := (buf (offset + 1) % 256) &&& 0xf
    seq_range := buf (offset + 2) % 256
    flags := buf (offset + 3) % 256
    seq := uint32_of_bytes bo (memcpy_from buf (offset + 4) 4)
    aru_seq := uint32_of_bytes bo (memcpy_from buf (offset + 8) 4)
    source_view := { uuid := memcpy_from buf (offset + 12) 8 } }

/-- The memory after a successful `write` of a delegate message. -/
def delegateImage (m : EVSMessage) (buf : Buf) (offset : Nat) : Buf :=
  memcpy_to (memcpy_to (memcpy_to (memcpy_to (memcpy_to buf
    offset [(m.version &&& 0xf) ||| ((m.type <<< 4) &&& 0xf0)])
    (offset + 1) [0])
    (offset + 2) [0])
    (offset + 3) [0])
    (offset + 4) m.source.raw

/-- The object after `read` has taken the tag byte: only version and type change. -/
def tagDecoded (m0 : EVSMessage) (buf : Buf) (offset : Nat) : EVSMessage :=
  { m0 with
    version := (buf offset % 256) &&& 0xf
    type := ((buf offset % 256) >>> 4) &&& 0xf }

/-- The object after a successful `read` of a delegate message. -/
def delegateDecoded (m0 : EVSMessage) (buf : Buf) (offset : Nat) : EVSMessage :=
  { m0 with
    version := (buf offset % 256) &&& 0xf
    type := ((buf offset % 256) >>> 4) &&& 0xf
    source := { raw := memcpy_from buf (offset + 4) m0.source.size } }

/-! ## Members of the second group of claims -/

/-- The call `std::map<EVSPid, EVSRange>::insert` of the C++ standard library, the map
kept as the list of its entries (the order of the list carries no meaning): when the
key is present the map is left as it is and the flag is `false`, otherwise the entry is
added and the flag is `true`. Two addresses are the same key when they are equal. -/
def map_insert (m : List (Address × EVSRange)) (e : Address × EVSRange) :
    List (Address × EVSRange) × Bool :=
  if e.1 ∈ m.map Prod.fst then (m, false) else (m ++ [e], true)

/-- The call `std::set<EVSPid>::insert` of the C++ standard library, the set kept as
the list of its elements: the flag tells whether the element was added. -/
def set_insert (s : List Address) (pid : Address) : List Address × Bool :=
  if pid ∈ s then (s, false) else (s ++ [pid], true)

/-- The member `add_operational_instance`: the outcome of the call and the object after
it. On a null `oper_inst` the C++ call is undefined; it is reported as a failure that
leaves the object alone. -/
def EVSMessage.add_operational_instance (self : EVSMessage) (pid : Address) (range : EVSRange) :
    Except String Unit × EVSMessage :=
  match self.oper_inst with
  | none => (Except.error "null oper_inst", self)
  | some m =>
    let i := map_insert m (pid, range)
    let self := { self with oper_inst := some i.1 }
    if i.2 = false then (Except.error "", self) else (Except.ok (), self)

/-- The member `add_untrusted_instance`, with the conventions of
`add_operational_instance`. -/
def EVSMessage.add_untrusted_instance (self : EVSMessage) (pid : Address) :
    Except String Unit × EVSMessage :=
  match self.untr_inst with
  | none => (Except.error "null untr_inst", self)
  | some s =>
    let i := set_insert s pid
    let self := { self with untr_inst := some i.1 }
    if i.2 = false then (Except.error "", self) else (Except.ok (), self)

/-- The member `add_unoperational_instance`, with the conventions of
`add_operational_instance`. -/
def EVSMessage.add_unoperational_instance (self : EVSMessage) (pid : Address) :
    Except String Unit × EVSMessage :=
  match self.unop_inst with
  | none => (Except.error "null unop_inst", self)
  | some s =>
    let i := set_insert s pid
    let self := { self with unop_inst := some i.1 }
    if i.2 = false then (Except.error "", self) else (Except.ok (), self)

/-- The member `get_hdr`. The scratch array `mutable unsigned char hdrbuf[32]` is passed
as the memory `hdrbuf`, whose cells from 32 on lie past the array; the result is the
outcome of the call and that memory after it, which on success is what the returned
pointer shows. -/
def EVSMessage.get_hdr (bo : ByteOrder) (self : EVSMessage) (hdrbuf : Buf) :
    Except String Unit × Buf :=
  let r := self.write bo hdrbuf 32 0
  if r.1 = 0 then (Except.error "Short buffer", r.2) else (Except.ok (), r.2)

/-- The member `get_hdrlen`. -/
def EVSMessage.get_hdrlen (self : EVSMessage) : Nat := self.size

/-- The function `equal`. After the tag test the `switch` has the labels `JOIN` and
`default` on one statement, which logs "equal() not implemented for" the tag and breaks;
the log line is not modelled. -/
def equal (a b : EVSMessage) : Bool :=
  if a.get_type ≠ b.get_type then false
  else
    match a.get_type with
    | 3 => false
    | _ => false

/-- The function `memcmp` of the C library on the first `n` bytes of two arrays: zero
when they agree, otherwise the difference of the first two bytes that differ, taken as
unsigned bytes. -/
def memcmp : List Nat → List Nat → Nat → Int
  | _, _, 0 => 0
  | a, b, n + 1 =>
    if a.headD 0 % 256 ≠ b.headD 0 % 256 then
      ((a.headD 0 % 256 : Nat) : Int) - ((b.headD 0 % 256 : Nat) : Int)
    else memcmp a.tail b.tail n

/-- The member `EVSViewId::operator<`. -/
def EVSViewId.lt (self cmp : EVSViewId) : Bool := decide (memcmp self.uuid cmp.uuid 8 < 0)

/-- The member `EVSViewId::operator==`. -/
def EVSViewId.eq (self cmp : EVSViewId) : Bool := decide (memcmp self.uuid cmp.uuid 8 = 0)

/-- The constructor `EVSViewId(sa, seq)`: `raw` is the content of the array before the
constructor runs, `rnd` the value `::rand()` returns; the results of the two
`write_uint32` calls are not looked at. -/
def EVSViewId.create (bo : ByteOrder) (raw : List Nat) (rnd : Nat) (_sa : Address) (seq : Nat) :
    EVSViewId :=
  let r1 := write_uint32 bo rnd (bufOf raw) 8 0
  let r2 := write_uint32 bo seq r1.2 8 4
  { uuid := memcpy_from r2.2 0 8 }

/-- The member `EVSViewId::get_seq`. -/
def EVSViewId.get_seq (bo : ByteOrder) (self : EVSViewId) : Except String Nat :=
  let r := read_uint32 bo (bufOf self.uuid) 8 4 0
  if r.1 = 0 then Except.error "" else Except.ok r.2

/-- The enumerators of `EVSSafetyPrefix`, in declaration order. -/
def safety_prefixes : List Nat := [DROP, UNRELIABLE, FIFO, AGREED, SAFE]

/-- Storage whose pointer members hold something other than null before a constructor
runs. -/
def rawDirty : EVSMessage :=
  { raw0 with
    oper_inst := some [(addrA, { low := 1, high := 2 })]
    untr_inst := some [addrA]
    unop_inst := some [addrNil] }

/-- A leave message as its constructor builds it in `rawDirty`. -/
def sampleLeave : EVSMessage :=
  { rawDirty with type := LEAVE, source_view := view7 ByteOrder.big }

/-- A delegate message whose address takes 29 bytes, so that its encoding needs 33. -/
def sampleWideDelegate : EVSMessage :=
  { sampleDelegate with source := { raw := List.replicate 29 7 } }

/-- The join message `sampleJoin` after `add_operational_instance(addrA, {1, 2})`. -/
def sampleJoinA : EVSMessage :=
  { sampleJoin with oper_inst := some [(addrA, { low := 1, high := 2 })] }

/-- The view id `EVSViewId(addrA, 7)` built when `::rand()` returns `0x12345678`, in
big-endian byte order. -/
def sampleView : EVSViewId :=
  EVSViewId.create ByteOrder.big [9, 9, 9, 9, 9, 9, 9, 9] 0x12345678 addrA 7

/-! ## Bit-level facts -/

theorem and_0xf (b : Nat) : b &&& 0xf = b % 16 :=
  Nat.and_pow_two_sub_one_eq_mod b 4

theorem shr4_and_0xf (b : Nat) : (b >>> 4) &&& 0xf = b / 16 % 16 := by
  rw [and_0xf, Nat.shiftRight_eq_div_pow]

theorem shl4_and_0xf0 (t : Nat) : (t <<< 4) &&& 0xf0 = (t % 16) * 16 := by
  have h1 : (0xf0 : Nat) = 2 ^ 4 * (2 ^ 4 - 1) := by decide
  have h2 : (t % 16) * 16 = 2 ^ 4 * (t % 2 ^ 4) := by omega
  rw [h1, h2, Nat.shiftLeft_eq, Nat.mul_comm t]
  apply Nat.eq_of_testBit_eq
  intro i
  simp only [Nat.testBit_and, Nat.testBit_mul_pow_two, Nat.testBit_two_pow_sub_one,
    Nat.testBit_mod_two_pow]
  by_cases h : 4 ≤ i <;> simp [h, Bool.and_comm]

/-- The tag/version byte of `write` in arithmetic form. -/
theorem tag_byte_eq (v t : Nat) :
    (v &&& 0xf) ||| ((t <<< 4) &&& 0xf0) = (t % 16) * 16 + v % 16 := by
  rw [shl4_and_0xf0, and_0xf, Nat.lor_comm]
  have h := Nat.mul_add_lt_is_or (Nat.mod_lt v (by decide : 0 < 2 ^ 4)) (t % 16)
  have e1 : t % 16 * 16 = 2 ^ 4 * (t % 16) := by omega
  have e2 : v % 16 = v % 2 ^ 4 := by norm_num
  rw [e1, e2, ← h]

/-! ## Memory facts -/

theorem memcpy_to_outside (buf : Buf) (off : Nat) (src : List Nat) (i : Nat)
    (h : i < off ∨ off + src.length ≤ i) : memcpy_to buf off src i = buf i := by
  unfold memcpy_to
  rw [if_neg (by omega)]

theorem memcpy_to_inside (buf : Buf) (off : Nat) (src : List Nat) (i : Nat)
    (h : i < src.length) : memcpy_to buf off src (off + i) = src.getD i 0 % 256 := by
  unfold memcpy_to
  rw [if_pos (by omega), Nat.add_sub_cancel_left]

theorem memcpy_to_one (buf : Buf) (off b : Nat) : memcpy_to buf off [b] off = b % 256 := by
  have h := memcpy_to_inside buf off [b] 0 (by simp)
  simpa using h

theorem memcpy_from_length (buf : Buf) (off n : Nat) : (memcpy_from buf off n).length = n := by
  simp [memcpy_from]

theorem memcpy_from_congr (b1 b2 : Buf) (off n : Nat)
    (h : ∀ i, i < n → b1 (off + i) = b2 (off + i)) : memcpy_from b1 off n = memcpy_from b2 off n := by
  unfold memcpy_from
  apply List.map_congr_left
  intro i hi
  rw [h i (List.mem_range.mp hi)]

theorem memcpy_from_to_disjoint (buf : Buf) (off1 : Nat) (src : List Nat) (off n : Nat)
    (h : off + n ≤ off1 ∨ off1 + src.length ≤ off) :
    memcpy_from (memcpy_to buf off1 src) off n = memcpy_from buf off n := by
  apply memcpy_from_congr
  intro i hi
  apply memcpy_to_outside
  omega

theorem memcpy_from_to_same (buf : Buf) (off : Nat) (src : List Nat) :
    memcpy_from (memcpy_to buf off src) off src.length = src.map (fun b => b % 256) := by
  apply List.ext_getElem
  · simp [memcpy_from]
  · intro i h1 h2
    simp only [memcpy_from, List.getElem_map, List.getElem_range]
    have hi : i < src.length := by simpa using h2
    rw [memcpy_to_inside buf off src i hi, List.getD_eq_getElem _ _ hi, Nat.mod_mod]

theorem map_mod_of_bytes (l : List Nat) (h : ∀ b ∈ l, b < 256) :
    l.map (fun b => b % 256) = l := by
  conv_rhs => rw [← List.map_id l]
  apply List.map_congr_left
  intro b hb
  exact Nat.mod_eq_of_lt (h b hb)

theorem uint32_bytes_length (bo : ByteOrder) (v : Nat) : (uint32_bytes bo v).length = 4 := by
  cases bo <;> rfl

theorem uint32_bytes_lt (bo : ByteOrder) (v : Nat) : ∀ b ∈ uint32_bytes bo v, b < 256 := by
  cases bo <;> simp [uint32_bytes] <;> omega

theorem uint32_of_bytes_bytes (bo : ByteOrder) (v : Nat) :
    uint32_of_bytes bo (uint32_bytes bo v) = v % 2 ^ 32 := by
  cases bo <;> simp [uint32_of_bytes, uint32_bytes] <;> omega

/-! ## The integer helpers on a long enough buffer -/

theorem write_uint8_ok (b : Nat) (buf : Buf) (buflen offset : Nat) (h : offset + 1 ≤ buflen) :
    write_uint8 b buf buflen offset = (offset + 1, memcpy_to buf offset [b]) := by
  unfold write_uint8
  rw [if_neg (by omega)]

theorem write_uint32_ok (bo : ByteOrder) (v : Nat) (buf : Buf) (buflen offset : Nat)
    (h : offset + 4 ≤ buflen) :
    write_uint32 bo v buf buflen offset = (offset + 4, memcpy_to buf offset (uint32_bytes bo v)) := by
  unfold write_uint32
  rw [if_neg (by omega)]

theorem read_uint8_ok (buf : Buf) (buflen offset dst : Nat) (h : offset + 1 ≤ buflen) :
    read_uint8 buf buflen offset dst = (offset + 1, buf offset % 256) := by
  unfold read_uint8
  rw [if_neg (by omega)]

theorem read_uint32_ok (bo : ByteOrder) (buf : Buf) (buflen offset dst : Nat)
    (h : offset + 4 ≤ buflen) :
    read_uint32 bo buf buflen offset dst =
      (offset + 4, uint32_of_bytes bo (memcpy_from buf offset 4)) := by
  unfold read_uint32
  rw [if_neg (by omega)]

theorem viewid_write_ok (v : EVSViewId) (buf : Buf) (buflen offset : Nat)
    (h : offset + 8 ≤ buflen) (hsz : buflen < SIZE_MOD) :
    v.write buf buflen offset = (offset + 8, memcpy_to buf offset (v.uuid.take 8)) := by
  unfold EVSViewId.write
  rw [Nat.mod_eq_of_lt (by omega), if_neg (by omega)]

theorem viewid_read_ok (v : EVSViewId) (buf : Buf) (buflen offset : Nat)
    (h : offset + 8 ≤ buflen) (hsz : buflen < SIZE_MOD) :
    v.read buf buflen offset = (offset + 8, { uuid := memcpy_from buf offset 8 }) := by
  unfold EVSViewId.read
  rw [Nat.mod_eq_of_lt (by omega), if_neg (by omega)]

theorem write_user_eq (bo : ByteOrder) (m : EVSMessage) (buf : Buf) (buflen offset : Nat)
    (hty : m.type = USER) (hlen : offset + 20 ≤ buflen) (hsz : buflen < SIZE_MOD) :
    m.write bo buf buflen offset = (offset + 20, userImage bo m buf offset) := by
  unfold EVSMessage.write
  simp only [hty, if_true]
  rw [write_uint8_ok _ _ _ _ (by omega)]
  simp only [Nat.add_eq_zero, one_ne_zero, and_false, if_false]
  rw [write_uint8_ok _ _ _ _ (by omega)]
  simp only [Nat.add_eq_zero, one_ne_zero, and_false, if_false]
  rw [write_uint8_ok _ _ _ _ (by omega)]
  simp only [Nat.add_eq_zero, one_ne_zero, and_false, if_false]
  rw [write_uint8_ok _ _ _ _ (by omega)]
  simp only [Nat.add_eq_zero, one_ne_zero, and_false, if_false]
  rw [write_uint32_ok _ _ _ _ _ (by omega)]
  simp only [Nat.add_eq_zero, OfNat.ofNat_ne_zero, and_false, if_false]
  rw [write_uint32_ok _ _ _ _ _ (by omega)]
  simp only [Nat.add_eq_zero, OfNat.ofNat_ne_zero, and_false, if_false]
  rw [viewid_write_ok _ _ _ _ (by omega) hsz]
  simp only [Nat.add_eq_zero, OfNat.ofNat_ne_zero, and_false, if_false, Nat.add_assoc,
    userImage, hty, Nat.reduceAdd]

theorem read_user_eq (bo : ByteOrder) (m0 : EVSMessage) (buf : Buf) (buflen offset : Nat)
    (htag : ((buf offset % 256) >>> 4) &&& 0xf = USER)
    (hlen : offset + 20 ≤ buflen) (hsz : buflen < SIZE_MOD) :
    EVSMessage.read bo m0 buf buflen offset = (offset + 20, userDecoded bo m0 buf offset) := by
  unfold EVSMessage.read
  rw [read_uint8_ok _ _ _ _ (by omega)]
  simp only [Nat.add_eq_zero, one_ne_zero, and_false, if_false, htag, if_true]
  rw [read_uint8_ok _ _ _ _ (by omega)]
  simp only [Nat.add_eq_zero, one_ne_zero, and_false, if_false]
  rw [read_uint8_ok _ _ _ _ (by omega)]
  simp only [Nat.add_eq_zero, one_ne_zero, and_false, if_false]
  rw [read_uint8_ok _ _ _ _ (by omega)]
  simp only [Nat.add_eq_zero, one_ne_zero, and_false, if_false]
  rw [read_uint32_ok _ _ _ _ _ (by omega)]
  simp only [Nat.add_eq_zero, OfNat.ofNat_ne_zero, and_false, if_false]
  rw [read_uint32_ok _ _ _ _ _ (by omega)]
  simp only [Nat.add_eq_zero, OfNat.ofNat_ne_zero, and_false, if_false]
  rw [viewid_read_ok _ _ _ _ (by omega) hsz]
  simp only [Nat.add_eq_zero, OfNat.ofNat_ne_zero, and_false, if_false, Nat.add_assoc,
    userDecoded, htag, Nat.reduceAdd]

/-! ## Content of the memory image of a user message -/

theorem userImage_at0 (bo : ByteOrder) (m : EVSMessage) (buf : Buf) (offset : Nat) :
    userImage bo m buf offset offset = (m.type % 16) * 16 + m.version % 16 := by
  unfold userImage
  rw [memcpy_to_outside _ _ _ _ (by omega), memcpy_to_outside _ _ _ _ (by omega),
    memcpy_to_outside _ _ _ _ (by omega), memcpy_to_outside _ _ _ _ (by simp),
    memcpy_to_outside _ _ _ _ (by simp), memcpy_to_outside _ _ _ _ (by simp),
    memcpy_to_one, tag_byte_eq]
  omega

theorem userImage_at1 (bo : ByteOrder) (m : EVSMessage) (buf : Buf) (offset : Nat) :
    userImage bo m buf offset (offset + 1) = EVSMessage.safety_prefix m % 16 := by
  unfold userImage
  rw [memcpy_to_outside _ _ _ _ (by omega), memcpy_to_outside _ _ _ _ (by omega),
    memcpy_to_outside _ _ _ _ (by omega), memcpy_to_outside _ _ _ _ (by simp),
    memcpy_to_outside _ _ _ _ (by simp), memcpy_to_one, and_0xf]
  omega

theorem userImage_at2 (bo : ByteOrder) (m : EVSMessage) (buf : Buf) (offset : Nat) :
    userImage bo m buf offset (offset + 2) = m.seq_range % 256 := by
  unfold userImage
  rw [memcpy_to_outside _ _ _ _ (by omega), memcpy_to_outside _ _ _ _ (by omega),
    memcpy_to_outside _ _ _ _ (by omega), memcpy_to_outside _ _ _ _ (by simp), memcpy_to_one]

theorem userImage_at3 (bo : ByteOrder) (m : EVSMessage) (buf : Buf) (offset : Nat) :
    userImage bo m buf offset (offset + 3) = m.flags % 256 := by
  unfold userImage
  rw [memcpy_to_outside _ _ _ _ (by omega), memcpy_to_outside _ _ _ _ (by omega),
    memcpy_to_outside _ _ _ _ (by omega), memcpy_to_one]

theorem userImage_seq (bo : ByteOrder) (m : EVSMessage) (buf : Buf) (offset : Nat) :
    memcpy_from (userImage bo m buf offset) (offset + 4) 4 = uint32_bytes bo m.seq := by
  unfold userImage
  rw [memcpy_from_to_disjoint _ _ _ _ _ (by omega), memcpy_from_to_disjoint _ _ _ _ _ (by omega)]
  have h := memcpy_from_to_same (memcpy_to (memcpy_to (memcpy_to (memcpy_to buf
    offset [(m.version &&& 0xf) ||| ((m.type <<< 4) &&& 0xf0)])
    (offset + 1) [EVSMessage.safety_prefix m &&& 0xf])
    (offset + 2) [m.seq_range])
    (offset + 3) [m.flags]) (offset + 4) (uint32_bytes bo m.seq)
  rw [uint32_bytes_length, map_mod_of_bytes _ (uint32_bytes_lt bo m.seq)] at h
  exact h

theorem userImage_aru (bo : ByteOrder) (m : EVSMessage) (buf : Buf) (offset : Nat) :
    memcpy_from (userImage bo m buf offset) (offset + 8) 4 = uint32_bytes bo m.aru_seq := by
  unfold userImage
  rw [memcpy_from_to_disjoint _ _ _ _ _ (by omega)]
  have h := memcpy_from_to_same (memcpy_to (memcpy_to (memcpy_to (memcpy_to (memcpy_to buf
    offset [(m.version &&& 0xf) ||| ((m.type <<< 4) &&& 0xf0)])
    (offset + 1) [EVSMessage.safety_prefix m &&& 0xf])
    (offset + 2) [m.seq_range])
    (offset + 3) [m.flags]) (offset + 4) (uint32_bytes bo m.seq))
    (offset + 8) (uint32_bytes bo m.aru_seq)
  rw [uint32_bytes_length, map_mod_of_bytes _ (uint32_bytes_lt bo m.aru_seq)] at h
  exact h

theorem userImage_view (bo : ByteOrder) (m : EVSMessage) (buf : Buf) (offset : Nat)
    (hv : m.source_view.wf) :
    memcpy_from (userImage bo m buf offset) (offset + 12) 8 = m.source_view.uuid := by
  unfold userImage
  have h := memcpy_from_to_same (memcpy_to (memcpy_to (memcpy_to (memcpy_to (memcpy_to
    (memcpy_to buf
    offset [(m.version &&& 0xf) ||| ((m.type <<< 4) &&& 0xf0)])
    (offset + 1) [EVSMessage.safety_prefix m &&& 0xf])
    (offset + 2) [m.seq_range])
    (offset + 3) [m.flags]) (offset + 4) (uint32_bytes bo m.seq))
    (offset + 8) (uint32_bytes bo m.aru_seq)) (offset + 12) (m.source_view.uuid.take 8)
  have htake : m.source_view.uuid.take 8 = m.source_view.uuid :=
    List.take_of_length_le (le_of_eq hv.1)
  rw [htake, hv.1, map_mod_of_bytes _ hv.2] at h
  rw [htake]
  exact h

/-! ## The integer helpers on a short buffer -/

theorem write_uint8_fail (b : Nat) (buf : Buf) (buflen offset : Nat) (h : buflen < offset + 1) :
    write_uint8 b buf buflen offset = (0, buf) := by
  unfold write_uint8
  rw [if_pos (by omega)]

theorem write_uint32_fail (bo : ByteOrder) (v : Nat) (buf : Buf) (buflen offset : Nat)
    (h : buflen < offset + 4) : write_uint32 bo v buf buflen offset = (0, buf) := by
  unfold write_uint32
  rw [if_pos (by omega)]

theorem read_uint8_fail (buf : Buf) (buflen offset dst : Nat) (h : buflen < offset + 1) :
    read_uint8 buf buflen offset dst = (0, dst) := by
  unfold read_uint8
  rw [if_pos (by omega)]

theorem read_uint32_fail (bo : ByteOrder) (buf : Buf) (buflen offset dst : Nat)
    (h : buflen < offset + 4) : read_uint32 bo buf buflen offset dst = (0, dst) := by
  unfold read_uint32
  rw [if_pos (by omega)]

theorem viewid_write_fail (v : EVSViewId) (buf : Buf) (buflen offset : Nat)
    (h : buflen < offset + 8) (hsz : offset + 8 < SIZE_MOD) :
    v.write buf buflen offset = (0, buf) := by
  unfold EVSViewId.write
  rw [Nat.mod_eq_of_lt hsz, if_pos (by omega)]

theorem viewid_read_fail (v : EVSViewId) (buf : Buf) (buflen offset : Nat)
    (h : buflen < offset + 8) (hsz : offset + 8 < SIZE_MOD) :
    v.read buf buflen offset = (0, v) := by
  unfold EVSViewId.read
  rw [Nat.mod_eq_of_lt hsz, if_pos (by omega)]

/-- A user message on a buffer with fewer than 20 bytes from the offset: `write` fails,
touches no byte below the offset or from `buflen` on, and the tag byte is stored when
there is room for it. -/
theorem write_user_short (bo : ByteOrder) (m : EVSMessage) (buf : Buf) (buflen offset : Nat)
    (hty : m.type = USER) (hsz : buflen + 8 < SIZE_MOD) (hshort : buflen < offset + 20) :
    (m.write bo buf buflen offset).1 = 0 ∧
    (∀ i, i < offset ∨ buflen ≤ i → (m.write bo buf buflen offset).2 i = buf i) ∧
    (offset + 1 ≤ buflen → (m.write bo buf buflen offset).2 offset =
      ((m.version &&& 0xf) ||| ((m.type <<< 4) &&& 0xf0)) % 256) := by
  unfold EVSMessage.write
  simp only [hty, if_true]
  by_cases h1 : offset + 1 ≤ buflen
  swap
  · rw [write_uint8_fail _ _ _ _ (by omega)]
    exact ⟨rfl, fun i _ => rfl, fun h => absurd h h1⟩
  rw [write_uint8_ok _ _ _ _ h1]
  simp only [Nat.add_eq_zero, one_ne_zero, and_false, if_false]
  by_cases h2 : offset + 1 + 1 ≤ buflen
  swap
  · rw [write_uint8_fail _ _ _ _ (by omega)]
    refine ⟨rfl, fun i hi => ?_, fun _ => ?_⟩
    · simp only [if_true]
      repeat rw [memcpy_to_outside _ _ _ _ (by simp [uint32_bytes_length]; omega)]
    · simp only [if_true]
      rw [memcpy_to_one]
  rw [write_uint8_ok _ _ _ _ h2]
  simp only [Nat.add_eq_zero, one_ne_zero, and_false, if_false]
  by_cases h3 : offset + 1 + 1 + 1 ≤ buflen
  swap
  · rw [write_uint8_fail _ _ _ _ (by omega)]
    refine ⟨rfl, fun i hi => ?_, fun _ => ?_⟩
    · simp only [if_true]
      repeat rw [memcpy_to_outside _ _ _ _ (by simp [uint32_bytes_length]; omega)]
    · simp only [if_true]
      repeat first
        | rw [memcpy_to_one]
        | rw [memcpy_to_outside _ _ _ _ (Or.inl (by omega))]
  rw [write_uint8_ok _ _ _ _ h3]
  simp only [Nat.add_eq_zero, one_ne_zero, and_false, if_false]
  by_cases h4 : offset + 1 + 1 + 1 + 1 ≤ buflen
  swap
  · rw [write_uint8_fail _ _ _ _ (by omega)]
    refine ⟨rfl, fun i hi => ?_, fun _ => ?_⟩
    · simp only [if_true]
      repeat rw [memcpy_to_outside _ _ _ _ (by simp [uint32_bytes_length]; omega)]
    · simp only [if_true]
      repeat first
        | rw [memcpy_to_one]
        | rw [memcpy_to_outside _ _ _ _ (Or.inl (by omega))]
  rw [write_uint8_ok _ _ _ _ h4]
  simp only [Nat.add_eq_zero, one_ne_zero, and_false, if_false]
  by_cases h5 : offset + 1 + 1 + 1 + 1 + 4 ≤ buflen
  swap
  · rw [write_uint32_fail _ _ _ _ _ (by omega)]
    refine ⟨rfl, fun i hi => ?_, fun _ => ?_⟩
    · simp only [if_true]
      repeat rw [memcpy_to_outside _ _ _ _ (by simp [uint32_bytes_length]; omega)]
    · simp only [if_true]
      repeat first
        | rw [memcpy_to_one]
        | rw [memcpy_to_outside _ _ _ _ (Or.inl (by omega))]
  rw [write_uint32_ok _ _ _ _ _ h5]
  simp only [Nat.add_eq_zero, OfNat.ofNat_ne_zero, and_false, if_false]
  by_cases h6 : offset + 1 + 1 + 1 + 1 + 4 + 4 ≤ buflen
  swap
  · rw [write_uint32_fail _ _ _ _ _ (by omega)]
    refine ⟨rfl, fun i hi => ?_, fun _ => ?_⟩
    · simp only [if_true]
      repeat rw [memcpy_to_outside _ _ _ _ (by simp [uint32_bytes_length]; omega)]
    · simp only [if_true]
      repeat first
        | rw [memcpy_to_one]
        | rw [memcpy_to_outside _ _ _ _ (Or.inl (by omega))]
  rw [write_uint32_ok _ _ _ _ _ h6]
  simp only [Nat.add_eq_zero, OfNat.ofNat_ne_zero, and_false, if_false]
  rw [viewid_write_fail _ _ _ _ (by omega) (by omega)]
  refine ⟨rfl, fun i hi => ?_, fun _ => ?_⟩
  · simp only [if_true]
    repeat rw [memcpy_to_outside _ _ _ _ (by simp [uint32_bytes_length]; omega)]
  · simp only [if_true]
    repeat first
      | rw [memcpy_to_one]
      | rw [memcpy_to_outside _ _ _ _ (Or.inl (by omega))]

/-! ## Delegate messages and the remaining tags -/

theorem address_write_ok (a : Address) (buf : Buf) (buflen offset : Nat)
    (h : offset + a.size ≤ buflen) :
    a.write buf buflen offset = (offset + a.size, memcpy_to buf offset a.raw) := by
  unfold Address.write
  rw [if_neg (by omega)]

theorem address_write_fail (a : Address) (buf : Buf) (buflen offset : Nat)
    (h : buflen < offset + a.size) : a.write buf buflen offset = (0, buf) := by
  unfold Address.write
  rw [if_pos (by omega)]

theorem address_read_ok (a : Address) (buf : Buf) (buflen offset : Nat)
    (h : offset + a.size ≤ buflen) :
    a.read buf buflen offset = (offset + a.size, { raw := memcpy_from buf offset a.size }) := by
  unfold Address.read
  rw [if_neg (by omega)]

theorem address_read_fail (a : Address) (buf : Buf) (buflen offset : Nat)
    (h : buflen < offset + a.size) : a.read buf buflen offset = (0, a) := by
  unfold Address.read
  rw [if_pos (by omega)]

theorem not_delegate_user : ¬ (DELEGATE = USER) := by decide

theorem write_delegate_eq (bo : ByteOrder) (m : EVSMessage) (buf : Buf) (buflen offset : Nat)
    (hty : m.type = DELEGATE) (hlen : offset + 4 + m.source.size ≤ buflen) :
    m.write bo buf buflen offset = (offset + 4 + m.source.size, delegateImage m buf offset) := by
  unfold EVSMessage.write
  simp only [hty, not_delegate_user, if_false, if_true, write_padding]
  rw [write_uint8_ok _ _ _ _ (by omega)]
  simp only [Nat.add_eq_zero, one_ne_zero, and_false, if_false]
  rw [write_uint8_ok _ _ _ _ (by omega)]
  simp only [Nat.add_eq_zero, one_ne_zero, and_false, if_false]
  rw [write_uint8_ok _ _ _ _ (by omega)]
  simp only [Nat.add_eq_zero, one_ne_zero, and_false, if_false]
  rw [write_uint8_ok _ _ _ _ (by omega)]
  simp only [Nat.add_eq_zero, one_ne_zero, and_false, if_false]
  rw [address_write_ok _ _ _ _ (by omega)]
  simp only [Nat.add_eq_zero, OfNat.ofNat_ne_zero, one_ne_zero, and_false, false_and, if_false,
    Nat.add_assoc, delegateImage, hty, Nat.reduceAdd]

/-- A delegate message on a buffer too short for it: `write` fails, touches no byte
below the offset or from `buflen` on, and the tag byte is stored when there is room. -/
theorem write_delegate_short (bo : ByteOrder) (m : EVSMessage) (buf : Buf) (buflen offset : Nat)
    (hty : m.type = DELEGATE) (hshort : buflen < offset + 4 + m.source.size) :
    (m.write bo buf buflen offset).1 = 0 ∧
    (∀ i, i < offset ∨ buflen ≤ i → (m.write bo buf buflen offset).2 i = buf i) ∧
    (offset + 1 ≤ buflen → (m.write bo buf buflen offset).2 offset =
      ((m.version &&& 0xf) ||| ((m.type <<< 4) &&& 0xf0)) % 256) := by
  unfold EVSMessage.write
  simp only [hty, not_delegate_user, if_false, if_true, write_padding]
  by_cases h1 : offset + 1 ≤ buflen
  swap
  · rw [write_uint8_fail _ _ _ _ (by omega)]
    exact ⟨rfl, fun i _ => rfl, fun h => absurd h h1⟩
  rw [write_uint8_ok _ _ _ _ h1]
  simp only [Nat.add_eq_zero, one_ne_zero, and_false, if_false]
  by_cases h2 : offset + 1 + 1 ≤ buflen
  swap
  · rw [write_uint8_fail _ _ _ _ (by omega)]
    refine ⟨rfl, fun i hi => ?_, fun _ => ?_⟩
    · simp only [if_true]
      repeat rw [memcpy_to_outside _ _ _ _ (by simp; omega)]
    · simp only [if_true]
      rw [memcpy_to_one]
  rw [write_uint8_ok _ _ _ _ h2]
  simp only [Nat.add_eq_zero, one_ne_zero, and_false, if_false]
  by_cases h3 : offset + 1 + 1 + 1 ≤ buflen
  swap
  · rw [write_uint8_fail _ _ _ _ (by omega)]
    refine ⟨rfl, fun i hi => ?_, fun _ => ?_⟩
    · simp only [if_true]
      repeat rw [memcpy_to_outside _ _ _ _ (by simp; omega)]
    · simp only [if_true]
      repeat first
        | rw [memcpy_to_one]
        | rw [memcpy_to_outside _ _ _ _ (Or.inl (by omega))]
  rw [write_uint8_ok _ _ _ _ h3]
  simp only [Nat.add_eq_zero, one_ne_zero, and_false, if_false]
  by_cases h4 : offset + 1 + 1 + 1 + 1 ≤ buflen
  swap
  · rw [write_uint8_fail _ _ _ _ (by omega)]
    refine ⟨rfl, fun i hi => ?_, fun _ => ?_⟩
    · simp only [if_true]
      repeat rw [memcpy_to_outside _ _ _ _ (by simp; omega)]
    · simp only [if_true]
      repeat first
        | rw [memcpy_to_one]
        | rw [memcpy_to_outside _ _ _ _ (Or.inl (by omega))]
  rw [write_uint8_ok _ _ _ _ h4]
  simp only [Nat.add_eq_zero, one_ne_zero, and_false, if_false]
  rw [address_write_fail _ _ _ _ (by omega)]
  refine ⟨rfl, fun i hi => ?_, fun _ => ?_⟩
  · simp only [if_true]
    repeat rw [memcpy_to_outside _ _ _ _ (by simp; omega)]
  · simp only [if_true]
    repeat first
      | rw [memcpy_to_one]
      | rw [memcpy_to_outside _ _ _ _ (Or.inl (by omega))]

/-- A message of any other tag: `write` stores the tag byte only. -/
theorem write_other_eq (bo : ByteOrder) (m : EVSMessage) (buf : Buf) (buflen offset : Nat)
    (h0 : m.type ≠ USER) (h1 : m.type ≠ DELEGATE) (hlen : offset + 1 ≤ buflen) :
    m.write bo buf buflen offset =
      (offset + 1, memcpy_to buf offset [(m.version &&& 0xf) ||| ((m.type <<< 4) &&& 0xf0)]) := by
  unfold EVSMessage.write
  simp only [h0, h1, if_false]
  rw [write_uint8_ok _ _ _ _ hlen]
  simp only [Nat.add_eq_zero, one_ne_zero, and_false, if_false]

theorem write_first_fail (bo : ByteOrder) (m : EVSMessage) (buf : Buf) (buflen offset : Nat)
    (hlen : buflen < offset + 1) : m.write bo buf buflen offset = (0, buf) := by
  unfold EVSMessage.write
  simp only []
  rw [write_uint8_fail _ _ _ _ hlen]
  simp only [if_true]

theorem read_first_fail (bo : ByteOrder) (m0 : EVSMessage) (buf : Buf) (buflen offset : Nat)
    (hlen : buflen < offset + 1) : EVSMessage.read bo m0 buf buflen offset = (0, m0) := by
  unfold EVSMessage.read
  simp only []
  rw [read_uint8_fail _ _ _ _ hlen]
  simp only [if_true]

theorem read_other_eq (bo : ByteOrder) (m0 : EVSMessage) (buf : Buf) (buflen offset : Nat)
    (h0 : ((buf offset % 256) >>> 4) &&& 0xf ≠ USER)
    (h1 : ((buf offset % 256) >>> 4) &&& 0xf ≠ DELEGATE) (hlen : offset + 1 ≤ buflen) :
    EVSMessage.read bo m0 buf buflen offset = (offset + 1, tagDecoded m0 buf offset) := by
  unfold EVSMessage.read
  simp only []
  rw [read_uint8_ok _ _ _ _ hlen]
  simp only [Nat.add_eq_zero, one_ne_zero, and_false, if_false, h0, h1, tagDecoded]

theorem read_delegate_eq (bo : ByteOrder) (m0 : EVSMessage) (buf : Buf) (buflen offset : Nat)
    (htag : ((buf offset % 256) >>> 4) &&& 0xf = DELEGATE)
    (hlen : offset + 4 + m0.source.size ≤ buflen) (hsz : buflen < SIZE_MOD) :
    EVSMessage.read bo m0 buf buflen offset = (offset + 4, delegateDecoded m0 buf offset) := by
  unfold EVSMessage.read
  simp only []
  rw [read_uint8_ok _ _ _ _ (by omega)]
  simp only [Nat.add_eq_zero, one_ne_zero, and_false, if_false, htag, not_delegate_user, if_true]
  rw [Nat.mod_eq_of_lt (by omega : offset + 1 + 3 < SIZE_MOD), address_read_ok _ _ _ _ (by omega)]
  simp only [Nat.add_eq_zero, OfNat.ofNat_ne_zero, one_ne_zero, and_false, false_and, if_false,
    Nat.add_assoc, delegateDecoded, htag, Nat.reduceAdd]

theorem read_delegate_short (bo : ByteOrder) (m0 : EVSMessage) (buf : Buf) (buflen offset : Nat)
    (htag : ((buf offset % 256) >>> 4) &&& 0xf = DELEGATE)
    (hlen : offset + 1 ≤ buflen) (hshort : buflen < offset + 4 + m0.source.size)
    (hsz : buflen + 8 < SIZE_MOD) :
    EVSMessage.read bo m0 buf buflen offset = (0, tagDecoded m0 buf offset) := by
  unfold EVSMessage.read
  simp only []
  rw [read_uint8_ok _ _ _ _ (by omega)]
  simp only [Nat.add_eq_zero, one_ne_zero, and_false, if_false, htag, not_delegate_user, if_true]
  rw [Nat.mod_eq_of_lt (by omega : offset + 1 + 3 < SIZE_MOD), address_read_fail _ _ _ _ (by omega)]
  simp only [if_true, tagDecoded, htag]

/-- A user tag on a buffer with fewer than 20 bytes from the offset: `read` fails, with
version and type already taken from the tag byte. -/
theorem read_user_short (bo : ByteOrder) (m0 : EVSMessage) (buf : Buf) (buflen offset : Nat)
    (htag : ((buf offset % 256) >>> 4) &&& 0xf = USER)
    (hlen : offset + 1 ≤ buflen) (hshort : buflen < offset + 20) (hsz : buflen + 8 < SIZE_MOD) :
    (EVSMessage.read bo m0 buf buflen offset).1 = 0 ∧
    (EVSMessage.read bo m0 buf buflen offset).2.version = (buf offset % 256) &&& 0xf ∧
    (EVSMessage.read bo m0 buf buflen offset).2.type = ((buf offset % 256) >>> 4) &&& 0xf := by
  unfold EVSMessage.read
  simp only []
  rw [read_uint8_ok _ _ _ _ hlen]
  simp only [Nat.add_eq_zero, one_ne_zero, and_false, if_false, htag, if_true]
  by_cases h2 : offset + 1 + 1 ≤ buflen
  swap
  · rw [read_uint8_fail _ _ _ _ (by omega)]
    simp only [if_true, and_self]
  rw [read_uint8_ok _ _ _ _ h2]
  simp only [Nat.add_eq_zero, one_ne_zero, and_false, if_false]
  by_cases h3 : offset + 1 + 1 + 1 ≤ buflen
  swap
  · rw [read_uint8_fail _ _ _ _ (by omega)]
    simp only [if_true, and_self]
  rw [read_uint8_ok _ _ _ _ h3]
  simp only [Nat.add_eq_zero, one_ne_zero, and_false, if_false]
  by_cases h4 : offset + 1 + 1 + 1 + 1 ≤ buflen
  swap
  · rw [read_uint8_fail _ _ _ _ (by omega)]
    simp only [if_true, and_self]
  rw [read_uint8_ok _ _ _ _ h4]
  simp only [Nat.add_eq_zero, one_ne_zero, and_false, if_false]
  by_cases h5 : offset + 1 + 1 + 1 + 1 + 4 ≤ buflen
  swap
  · rw [read_uint32_fail _ _ _ _ _ (by omega)]
    simp only [if_true, and_self]
  rw [read_uint32_ok _ _ _ _ _ h5]
  simp only [Nat.add_eq_zero, OfNat.ofNat_ne_zero, and_false, if_false]
  by_cases h6 : offset + 1 + 1 + 1 + 1 + 4 + 4 ≤ buflen
  swap
  · rw [read_uint32_fail _ _ _ _ _ (by omega)]
    simp only [if_true, and_self]
  rw [read_uint32_ok _ _ _ _ _ h6]
  simp only [Nat.add_eq_zero, OfNat.ofNat_ne_zero, and_false, if_false]
  rw [viewid_read_fail _ _ _ _ (by omega) (by omega)]
  simp only [if_true, and_self]

/-- The tag byte `write` stores, decoded: the nibbles are the type and the version. -/
theorem tag_byte_nibbles (v t : Nat) (ht : t < 16) :
    (((v &&& 0xf) ||| ((t <<< 4) &&& 0xf0)) % 256) &&& 0xf = v % 16 ∧
    ((((v &&& 0xf) ||| ((t <<< 4) &&& 0xf0)) % 256) >>> 4) &&& 0xf = t := by
  rw [tag_byte_eq, shr4_and_0xf, and_0xf]
  omega

/-! ## The tag byte, whatever the buffer length -/

theorem viewid_write_below (v : EVSViewId) (buf : Buf) (buflen offset i : Nat) (h : i < offset) :
    (v.write buf buflen offset).2 i = buf i := by
  unfold EVSViewId.write
  split_ifs
  · rfl
  · exact memcpy_to_outside _ _ _ _ (Or.inl h)

/-- A user message: once there is room for one byte, `write` leaves the tag byte at
the offset, whether it then succeeds or fails. -/
theorem write_user_tag (bo : ByteOrder) (m : EVSMessage) (buf : Buf) (buflen offset : Nat)
    (hty : m.type = USER) (h1 : offset + 1 ≤ buflen) :
    (m.write bo buf buflen offset).2 offset =
      ((m.version &&& 0xf) ||| ((m.type <<< 4) &&& 0xf0)) % 256 := by
  unfold EVSMessage.write
  simp only [hty, if_true]
  rw [write_uint8_ok _ _ _ _ h1]
  simp only [Nat.add_eq_zero, one_ne_zero, and_false, if_false]
  by_cases h2 : offset + 1 + 1 ≤ buflen
  swap
  · rw [write_uint8_fail _ _ _ _ (by omega)]
    simp only [if_true]
    rw [memcpy_to_one]
  rw [write_uint8_ok _ _ _ _ h2]
  simp only [Nat.add_eq_zero, one_ne_zero, and_false, if_false]
  by_cases h3 : offset + 1 + 1 + 1 ≤ buflen
  swap
  · rw [write_uint8_fail _ _ _ _ (by omega)]
    simp only [if_true]
    repeat first
      | rw [memcpy_to_one]
      | rw [memcpy_to_outside _ _ _ _ (Or.inl (by omega))]
  rw [write_uint8_ok _ _ _ _ h3]
  simp only [Nat.add_eq_zero, one_ne_zero, and_false, if_false]
  by_cases h4 : offset + 1 + 1 + 1 + 1 ≤ buflen
  swap
  · rw [write_uint8_fail _ _ _ _ (by omega)]
    simp only [if_true]
    repeat first
      | rw [memcpy_to_one]
      | rw [memcpy_to_outside _ _ _ _ (Or.inl (by omega))]
  rw [write_uint8_ok _ _ _ _ h4]
  simp only [Nat.add_eq_zero, one_ne_zero, and_false, if_false]
  by_cases h5 : offset + 1 + 1 + 1 + 1 + 4 ≤ buflen
  swap
  · rw [write_uint32_fail _ _ _ _ _ (by omega)]
    simp only [if_true]
    repeat first
      | rw [memcpy_to_one]
      | rw [memcpy_to_outside _ _ _ _ (Or.inl (by omega))]
  rw [write_uint32_ok _ _ _ _ _ h5]
  simp only [Nat.add_eq_zero, OfNat.ofNat_ne_zero, and_false, if_false]
  by_cases h6 : offset + 1 + 1 + 1 + 1 + 4 + 4 ≤ buflen
  swap
  · rw [write_uint32_fail _ _ _ _ _ (by omega)]
    simp only [if_true]
    repeat first
      | rw [memcpy_to_one]
      | rw [memcpy_to_outside _ _ _ _ (Or.inl (by omega))]
  rw [write_uint32_ok _ _ _ _ _ h6]
  simp only [Nat.add_eq_zero, OfNat.ofNat_ne_zero, and_false, if_false]
  have hv := viewid_write_below m.source_view
    (memcpy_to (memcpy_to (memcpy_to (memcpy_to (memcpy_to (memcpy_to buf
      offset [(m.version &&& 0xf) ||| ((USER <<< 4) &&& 0xf0)])
      (offset + 1) [EVSMessage.safety_prefix m &&& 0xf])
      (offset + 1 + 1) [m.seq_range])
      (offset + 1 + 1 + 1) [m.flags])
      (offset + 1 + 1 + 1 + 1) (uint32_bytes bo m.seq))
      (offset + 1 + 1 + 1 + 1 + 4) (uint32_bytes bo m.aru_seq))
    buflen (offset + 1 + 1 + 1 + 1 + 4 + 4) offset (by omega)
  split_ifs
  all_goals
    simp only []
    rw [hv]
    repeat first
      | rw [memcpy_to_one]
      | rw [memcpy_to_outside _ _ _ _ (Or.inl (by omega))]

theorem delegateImage_at0 (m : EVSMessage) (buf : Buf) (offset : Nat) :
    delegateImage m buf offset offset =
      ((m.version &&& 0xf) ||| ((m.type <<< 4) &&& 0xf0)) % 256 := by
  unfold delegateImage
  repeat first
    | rw [memcpy_to_one]
    | rw [memcpy_to_outside _ _ _ _ (Or.inl (by omega))]

/-- Every message: once there is room for one byte, `write` leaves the tag byte at the
offset, whether it then succeeds or fails. -/
theorem write_tag_byte (bo : ByteOrder) (m : EVSMessage) (buf : Buf) (buflen offset : Nat)
    (h1 : offset + 1 ≤ buflen) :
    (m.write bo buf buflen offset).2 offset =
      ((m.version &&& 0xf) ||| ((m.type <<< 4) &&& 0xf0)) % 256 := by
  by_cases hu : m.type = USER
  · exact write_user_tag bo m buf buflen offset hu h1
  by_cases hd : m.type = DELEGATE
  · by_cases hlen : offset + 4 + m.source.size ≤ buflen
    · rw [write_delegate_eq bo m buf buflen offset hd hlen]
      exact delegateImage_at0 m buf offset
    · exact (write_delegate_short bo m buf buflen offset hd (by omega)).2.2 h1
  rw [write_other_eq bo m buf buflen offset hu hd h1]
  exact memcpy_to_one _ _ _

/-- Every buffer: once there is one byte to take, `read` leaves the nibbles of the byte
at the offset in version and type, whether it then succeeds or fails. -/
theorem read_tag (bo : ByteOrder) (m0 : EVSMessage) (buf : Buf) (buflen offset : Nat)
    (h1 : offset + 1 ≤ buflen) :
    (EVSMessage.read bo m0 buf buflen offset).2.version = (buf offset % 256) &&& 0xf ∧
    (EVSMessage.read bo m0 buf buflen offset).2.type = ((buf offset % 256) >>> 4) &&& 0xf := by
  unfold EVSMessage.read
  simp only []
  rw [read_uint8_ok _ _ _ _ h1]
  simp only [Nat.add_eq_zero, one_ne_zero, and_false, if_false]
  split_ifs <;> exact ⟨rfl, rfl⟩

/-! ## Write followed by read, per tag -/

theorem read_back_user (bo : ByteOrder) (m m0 : EVSMessage) (buf : Buf) (buflen offset : Nat)
    (hty : m.type = USER) (hwf : m.wf) (hlen : offset + 20 ≤ buflen) (hsz : buflen < SIZE_MOD) :
    read_back bo m m0 buf buflen offset =
      (offset + 20,
        { m0 with
          version := m.version % 16
          type := USER
          safety_prefix := EVSMessage.safety_prefix m
          seq := m.seq
          seq_range := m.seq_range
          aru_seq := m.aru_seq
          flags := m.flags
          source_view := m.source_view }) := by
  obtain ⟨h1, h2, h3, h4, h5, h6, h7, -⟩ := hwf
  have hn := tag_byte_nibbles m.version m.type h1
  have hb0 : userImage bo m buf offset offset =
      ((m.version &&& 0xf) ||| ((m.type <<< 4) &&& 0xf0)) % 256 := by
    rw [userImage_at0, tag_byte_eq]
    omega
  have htag : ((userImage bo m buf offset offset % 256) >>> 4) &&& 0xf = USER := by
    rw [hb0, Nat.mod_mod, hn.2, hty]
  unfold read_back
  rw [write_user_eq bo m buf buflen offset hty hlen hsz]
  simp only []
  rw [read_user_eq bo m0 _ buflen offset htag hlen hsz]
  simp only [userDecoded, userImage_at1, userImage_at2, userImage_at3, userImage_seq,
    userImage_aru, userImage_view bo m buf offset h7, uint32_of_bytes_bytes]
  rw [hb0, Nat.mod_mod, hn.1, hn.2, hty, and_0xf]
  have e1 : EVSMessage.safety_prefix m % 16 % 256 % 16 = EVSMessage.safety_prefix m := by omega
  have e2 : m.seq_range % 256 % 256 = m.seq_range := by omega
  have e3 : m.flags % 256 % 256 = m.flags := by omega
  rw [e1, e2, e3, Nat.mod_eq_of_lt h3, Nat.mod_eq_of_lt h5]

theorem delegateImage_source (m : EVSMessage) (buf : Buf) (offset : Nat) (hs : m.source.wf) :
    memcpy_from (delegateImage m buf offset) (offset + 4) m.source.size = m.source.raw := by
  unfold delegateImage Address.size
  rw [memcpy_from_to_same, map_mod_of_bytes _ hs]

theorem read_back_delegate (bo : ByteOrder) (m m0 : EVSMessage) (buf : Buf)
    (buflen offset : Nat) (hty : m.type = DELEGATE) (hs : m.source.wf)
    (hsrc : m0.source.size = m.source.size)
    (hlen : offset + 4 + m.source.size ≤ buflen) (hsz : buflen < SIZE_MOD) :
    read_back bo m m0 buf buflen offset =
      (offset + 4, { m0 with version := m.version % 16, type := DELEGATE, source := m.source }) := by
  have hn := tag_byte_nibbles m.version m.type (by rw [hty]; decide)
  have htag : ((delegateImage m buf offset offset % 256) >>> 4) &&& 0xf = DELEGATE := by
    rw [delegateImage_at0, Nat.mod_mod, hn.2, hty]
  unfold read_back
  rw [write_delegate_eq bo m buf buflen offset hty hlen]
  simp only []
  rw [read_delegate_eq bo m0 _ buflen offset htag (by omega) hsz]
  simp only [delegateDecoded]
  rw [hsrc, delegateImage_source m buf offset hs, delegateImage_at0, Nat.mod_mod, hn.1, hn.2, hty]

theorem read_back_other (bo : ByteOrder) (m m0 : EVSMessage) (buf : Buf) (buflen offset : Nat)
    (h0 : m.type ≠ USER) (h1 : m.type ≠ DELEGATE) (ht : m.type < 16)
    (hlen : offset + 1 ≤ buflen) :
    read_back bo m m0 buf buflen offset =
      (offset + 1, { m0 with version := m.version % 16, type := m.type }) := by
  have hn := tag_byte_nibbles m.version m.type ht
  unfold read_back
  rw [write_other_eq bo m buf buflen offset h0 h1 hlen]
  simp only []
  have hb : memcpy_to buf offset [(m.version &&& 0xf) ||| ((m.type <<< 4) &&& 0xf0)] offset =
      ((m.version &&& 0xf) ||| ((m.type <<< 4) &&& 0xf0)) % 256 := memcpy_to_one _ _ _
  rw [read_other_eq bo m0 _ buflen offset (by rw [hb, Nat.mod_mod, hn.2]; exact h0)
    (by rw [hb, Nat.mod_mod, hn.2]; exact h1) hlen]
  simp only [tagDecoded]
  rw [hb, Nat.mod_mod, hn.1, hn.2]

/-! ## C1: round trip of a user message -/

/-- C1: for every user message `m` (version 0, members in the range of their types, so
any safety prefix among DROP .. SAFE), every offset and every buffer with at least 20
bytes from the offset, `write` succeeds with new offset `offset + 20`, and `read` on the
written buffer at the same offset, into any message object `m0`, succeeds and yields
type USER, version 0 and the safety prefix, seq, seq_range, aru_seq, flags and source
view of `m`. -/
theorem C1_user_round_trip (bo : ByteOrder) (m m0 : EVSMessage) (buf : Buf) (buflen offset : Nat)
    (hty : m.type = USER) (hver : m.version = 0) (hwf : m.wf)
    (hlen : offset + 20 ≤ buflen) (hsz : buflen < SIZE_MOD) :
    (m.write bo buf buflen offset).1 = offset + 20 ∧
    (m.write bo buf buflen offset).1 ≠ 0 ∧
    (read_back bo m m0 buf buflen offset).1 ≠ 0 ∧
    (read_back bo m m0 buf buflen offset).2.type = USER ∧
    (read_back bo m m0 buf buflen offset).2.version = 0 ∧
    EVSMessage.safety_prefix (read_back bo m m0 buf buflen offset).2 =
      EVSMessage.safety_prefix m ∧
    (read_back bo m m0 buf buflen offset).2.seq = m.seq ∧
    (read_back bo m m0 buf buflen offset).2.seq_range = m.seq_range ∧
    (read_back bo m m0 buf buflen offset).2.aru_seq = m.aru_seq ∧
    (read_back bo m m0 buf buflen offset).2.flags = m.flags ∧
    (read_back bo m m0 buf buflen offset).2.source_view = m.source_view := by
  rw [read_back_user bo m m0 buf buflen offset hty hwf hlen hsz,
    write_user_eq bo m buf buflen offset hty hlen hsz, hver]
  exact ⟨rfl, by simp, by simp, rfl, rfl, rfl, rfl, rfl, rfl, rfl, rfl⟩

/-- C1 at the worked example: SAFE, seq 42, seq_range 3, aru_seq 40, flags 0, view
sequence 7, written at offset 0 of a 20-byte buffer and read into a fresh message. -/
theorem C1_user_round_trip_witness :
    (sampleUser ByteOrder.big).type = USER ∧ (sampleUser ByteOrder.big).wf ∧
    ((sampleUser ByteOrder.big).write ByteOrder.big zeroBuf 20 0).1 = 0 + 20 ∧
    (read_back ByteOrder.big (sampleUser ByteOrder.big) sampleFresh zeroBuf 20 0).2.seq = 42 ∧
    (read_back ByteOrder.big (sampleUser ByteOrder.big) sampleFresh zeroBuf 20 0).2.source_view =
      view7 ByteOrder.big :=
  ⟨rfl, by decide,
    (C1_user_round_trip ByteOrder.big (sampleUser ByteOrder.big) sampleFresh zeroBuf 20 0 rfl rfl
      (by decide) (by decide) (by decide)).1,
    (C1_user_round_trip ByteOrder.big (sampleUser ByteOrder.big) sampleFresh zeroBuf 20 0 rfl rfl
      (by decide) (by decide) (by decide)).2.2.2.2.2.2.1,
    (C1_user_round_trip ByteOrder.big (sampleUser ByteOrder.big) sampleFresh zeroBuf 20 0 rfl rfl
      (by decide) (by decide) (by decide)).2.2.2.2.2.2.2.2.2.2⟩

/-! ## C2: round trip of the other variants -/

/-- C2, refuted as stated: the gap message with seq 5 and gap range 10 .. 20 is built by
its constructor and written into a 64-byte buffer; `write` emits one byte, and `read`
into a fresh message succeeds but restores neither the seq nor the gap, whatever the
value of `SEQNO_MAX` the fresh message was built with. -/
theorem C2_gap_fields_not_restored :
    EVSMessage.gapmsg raw0 addrNil GAP 5
      { source := addrA, range := { low := 10, high := 20 } } = Except.ok sampleGap ∧
    sampleGap.wf ∧
    (sampleGap.write ByteOrder.big zeroBuf 64 0).1 = 1 ∧
    (read_back ByteOrder.big sampleGap sampleFresh zeroBuf 64 0).1 = 1 ∧
    (read_back ByteOrder.big sampleGap sampleFresh zeroBuf 64 0).2.seq ≠ sampleGap.seq ∧
    (read_back ByteOrder.big sampleGap sampleFresh zeroBuf 64 0).2.gap.range ≠
      sampleGap.gap.range ∧
    (¬ ∃ S : Nat, (read_back ByteOrder.big sampleGap (EVSMessage.dflt raw0 S addrNil)
      zeroBuf 64 0).2.gap.range = sampleGap.gap.range) := by
  refine ⟨rfl, by decide, by decide, by decide, by decide, by decide, ?_⟩
  rintro ⟨S, hS⟩
  rw [read_back_other ByteOrder.big sampleGap _ zeroBuf 64 0 (by decide) (by decide)
    (by decide) (by decide)] at hS
  have h1 : S = 10 := congrArg EVSRange.low hS
  have h2 : S = 20 := congrArg EVSRange.high hS
  omega

/-- C2, amended: for every message `m` with members in the range of their types and a
buffer with room for the largest fixed encoding, `write` succeeds and `read` on what it
produced succeeds and restores the type tag and the version nibble; for USER also the
safety prefix, seq, seq_range, aru_seq, flags and source view; for DELEGATE also the
source (the receiving object's address having the same fixed size); for every other tag
(GAP, JOIN, LEAVE, INSTALL) only the tag byte travels and every other member of the
receiving object `m0` is left as it was. -/
theorem C2_round_trip_amended (bo : ByteOrder) (m m0 : EVSMessage) (buf : Buf)
    (buflen offset : Nat) (hwf : m.wf) (hsrc : m0.source.size = m.source.size)
    (hlen : offset + 20 + m.source.size ≤ buflen) (hsz : buflen < SIZE_MOD) :
    (m.write bo buf buflen offset).1 ≠ 0 ∧
    (read_back bo m m0 buf buflen offset).1 ≠ 0 ∧
    (read_back bo m m0 buf buflen offset).2.type = m.type ∧
    (read_back bo m m0 buf buflen offset).2.version = m.version % 16 ∧
    (m.type = USER →
      EVSMessage.safety_prefix (read_back bo m m0 buf buflen offset).2 =
        EVSMessage.safety_prefix m ∧
      (read_back bo m m0 buf buflen offset).2.seq = m.seq ∧
      (read_back bo m m0 buf buflen offset).2.seq_range = m.seq_range ∧
      (read_back bo m m0 buf buflen offset).2.aru_seq = m.aru_seq ∧
      (read_back bo m m0 buf buflen offset).2.flags = m.flags ∧
      (read_back bo m m0 buf buflen offset).2.source_view = m.source_view) ∧
    (m.type = DELEGATE → (read_back bo m m0 buf buflen offset).2.source = m.source) ∧
    (m.type ≠ USER → m.type ≠ DELEGATE →
      (read_back bo m m0 buf buflen offset).2 =
        { m0 with version := m.version % 16, type := m.type }) := by
  by_cases hu : m.type = USER
  · rw [read_back_user bo m m0 buf buflen offset hu hwf (by omega) hsz,
      write_user_eq bo m buf buflen offset hu (by omega) hsz]
    refine ⟨by simp, by simp, hu.symm, rfl, fun _ => ⟨rfl, rfl, rfl, rfl, rfl, rfl⟩, ?_, ?_⟩
    · intro hd
      rw [hu] at hd
      exact absurd hd (by decide)
    · intro h
      exact absurd hu h
  by_cases hd : m.type = DELEGATE
  · rw [read_back_delegate bo m m0 buf buflen offset hd hwf.2.2.2.2.2.2.2 hsrc (by omega) hsz,
      write_delegate_eq bo m buf buflen offset hd (by omega)]
    refine ⟨by simp, by simp, hd.symm, rfl, fun h => absurd h hu, fun _ => rfl, ?_⟩
    intro _ h
    exact absurd hd h
  rw [read_back_other bo m m0 buf buflen offset hu hd hwf.1 (by omega),
    write_other_eq bo m buf buflen offset hu hd (by omega)]
  exact ⟨by simp, by simp, rfl, rfl, fun h => absurd h hu, fun h => absurd h hd, fun _ _ => rfl⟩

/-- C2 amended, at the gap message of the worked example: the tag survives, the
receiving object keeps its own seq. -/
theorem C2_round_trip_amended_witness :
    sampleGap.wf ∧ sampleFresh.source.size = sampleGap.source.size ∧
    (read_back ByteOrder.big sampleGap sampleFresh zeroBuf 64 0).2.type = GAP ∧
    (read_back ByteOrder.big sampleGap sampleFresh zeroBuf 64 0).2 =
      { sampleFresh with version := 9, type := GAP } :=
  ⟨by decide, by decide,
    (C2_round_trip_amended ByteOrder.big sampleGap sampleFresh zeroBuf 64 0 (by decide)
      (by decide) (by decide) (by decide)).2.2.1,
    (C2_round_trip_amended ByteOrder.big sampleGap sampleFresh zeroBuf 64 0 (by decide)
      (by decide) (by decide) (by decide)).2.2.2.2.2.2 (by decide) (by decide)⟩

/-! ## C3: offset returned by read -/

/-- C3, at the failing input: the delegate message for a four-byte address is built by
its constructor; `write` at offset 0 of an 8-byte buffer returns 8, `read` on that
buffer restores the source but returns 4, the offset before the address. -/
theorem C3_delegate_read_returns_offset_before_source :
    EVSMessage.delegate raw0 seqnoMaxS addrNil DELEGATE addrA = Except.ok sampleDelegate ∧
    sampleDelegate.source.size = 4 ∧
    (sampleDelegate.write ByteOrder.big zeroBuf 8 0).1 = 8 ∧
    (read_back ByteOrder.big sampleDelegate sampleFresh zeroBuf 8 0).1 = 4 ∧
    (read_back ByteOrder.big sampleDelegate sampleFresh zeroBuf 8 0).2.source = addrA := by
  refine ⟨rfl, by decide, by decide, by decide, by decide⟩

/-! ## C4: wire layout of the fixed-size variants -/

theorem tag_byte_lt (v t : Nat) : (v &&& 0xf) ||| ((t <<< 4) &&& 0xf0) < 256 := by
  rw [tag_byte_eq]
  omega

theorem size_user (m : EVSMessage) (hty : m.type = USER) : m.size = 20 := by
  unfold EVSMessage.size EVSViewId.size
  rw [if_pos hty]
  decide

theorem size_delegate (m : EVSMessage) (hty : m.type = DELEGATE)
    (hs : 4 + m.source.size < SIZE_MOD) : m.size = 4 + m.source.size := by
  unfold EVSMessage.size
  rw [if_neg (by rw [hty]; decide), if_pos hty, Nat.mod_eq_of_lt hs]

theorem size_other (m : EVSMessage) (h0 : m.type ≠ USER) (h1 : m.type ≠ DELEGATE) :
    m.size = 0 := by
  unfold EVSMessage.size
  rw [if_neg h0, if_neg h1]

theorem delegateImage_pad (m : EVSMessage) (buf : Buf) (offset : Nat) :
    delegateImage m buf offset (offset + 1) = 0 ∧ delegateImage m buf offset (offset + 2) = 0 ∧
    delegateImage m buf offset (offset + 3) = 0 := by
  unfold delegateImage
  refine ⟨?_, ?_, ?_⟩
  all_goals
    repeat first
      | rw [memcpy_to_one]
      | rw [memcpy_to_outside _ _ _ _ (Or.inl (by omega))]

/-- C4: when `write` succeeds on a user message, the memory holds from the offset on the
tag/version byte, the safety prefix in one byte with a zero upper nibble, seq_range,
flags, the four bytes of seq, the four bytes of aru_seq and the eight bytes of the view
id, and the returned offset is `offset + 20 = offset + size()`; when it succeeds on a
delegate message, the memory holds the tag/version byte, three zero bytes and the bytes
of the source address, and the returned offset is
`offset + 4 + source.size() = offset + size()`. -/
theorem C4_wire_layout (bo : ByteOrder) (m : EVSMessage) (buf : Buf) (buflen offset : Nat)
    (hwf : m.wf) (hsz : buflen + 8 < SIZE_MOD) (hok : (m.write bo buf buflen offset).1 ≠ 0) :
    (m.type = USER →
      (m.write bo buf buflen offset).2 offset =
        (m.version &&& 0xf) ||| ((m.type <<< 4) &&& 0xf0) ∧
      (m.write bo buf buflen offset).2 (offset + 1) = EVSMessage.safety_prefix m ∧
      (m.write bo buf buflen offset).2 (offset + 1) / 16 = 0 ∧
      (m.write bo buf buflen offset).2 (offset + 2) = m.seq_range ∧
      (m.write bo buf buflen offset).2 (offset + 3) = m.flags ∧
      memcpy_from (m.write bo buf buflen offset).2 (offset + 4) 4 = uint32_bytes bo m.seq ∧
      memcpy_from (m.write bo buf buflen offset).2 (offset + 8) 4 = uint32_bytes bo m.aru_seq ∧
      memcpy_from (m.write bo buf buflen offset).2 (offset + 12) 8 = m.source_view.uuid ∧
      (m.write bo buf buflen offset).1 = offset + 20 ∧
      (m.write bo buf buflen offset).1 = offset + m.size) ∧
    (m.type = DELEGATE →
      (m.write bo buf buflen offset).2 offset =
        (m.version &&& 0xf) ||| ((m.type <<< 4) &&& 0xf0) ∧
      (m.write bo buf buflen offset).2 (offset + 1) = 0 ∧
      (m.write bo buf buflen offset).2 (offset + 2) = 0 ∧
      (m.write bo buf buflen offset).2 (offset + 3) = 0 ∧
      memcpy_from (m.write bo buf buflen offset).2 (offset + 4) m.source.size = m.source.raw ∧
      (m.write bo buf buflen offset).1 = offset + 4 + m.source.size ∧
      (m.write bo buf buflen offset).1 = offset + m.size) := by
  obtain ⟨-, h2, -, h4, -, h6, h7, h8⟩ := hwf
  constructor
  · intro hu
    have hlen : offset + 20 ≤ buflen := by
      by_contra hc
      exact hok (write_user_short bo m buf buflen offset hu hsz (by omega)).1
    rw [write_user_eq bo m buf buflen offset hu hlen (by omega), size_user m hu]
    simp only []
    rw [userImage_at0, userImage_at1, userImage_at2, userImage_at3, userImage_seq,
      userImage_aru, userImage_view bo m buf offset h7, tag_byte_eq]
    refine ⟨?_, ?_, ?_, ?_, ?_, ?_, ?_, ?_, ?_, ?_⟩ <;> first | trivial | rfl | omega
  · intro hd
    have hlen : offset + 4 + m.source.size ≤ buflen := by
      by_contra hc
      exact hok (write_delegate_short bo m buf buflen offset hd (by omega)).1
    rw [write_delegate_eq bo m buf buflen offset hd hlen, size_delegate m hd (by omega)]
    simp only []
    rw [delegateImage_at0, delegateImage_source m buf offset h8,
      Nat.mod_eq_of_lt (tag_byte_lt _ _)]
    have hp := delegateImage_pad m buf offset
    refine ⟨?_, hp.1, hp.2.1, hp.2.2, ?_, ?_, ?_⟩ <;> first | trivial | rfl | omega

/-- C4 at the worked example and at the sample delegate message: the bytes of the user
message in big-endian order, and the eight bytes of the delegate message. -/
theorem C4_wire_layout_witness :
    (sampleUser ByteOrder.big).wf ∧
    ((sampleUser ByteOrder.big).write ByteOrder.big zeroBuf 32 0).1 ≠ 0 ∧
    memcpy_from ((sampleUser ByteOrder.big).write ByteOrder.big zeroBuf 32 0).2 4 4 =
      [0, 0, 0, 42] ∧
    ((sampleUser ByteOrder.big).write ByteOrder.big zeroBuf 32 0).1 = 20 ∧
    (sampleDelegate.write ByteOrder.big zeroBuf 32 0).1 = 0 + sampleDelegate.size :=
  ⟨by decide, by decide,
    ((C4_wire_layout ByteOrder.big (sampleUser ByteOrder.big) zeroBuf 32 0 (by decide)
      (by decide) (by decide)).1 rfl).2.2.2.2.2.1,
    ((C4_wire_layout ByteOrder.big (sampleUser ByteOrder.big) zeroBuf 32 0 (by decide)
      (by decide) (by decide)).1 rfl).2.2.2.2.2.2.2.2.1,
    ((C4_wire_layout ByteOrder.big sampleDelegate zeroBuf 32 0 (by decide)
      (by decide) (by decide)).2 rfl).2.2.2.2.2.2⟩

/-! ## C5: the tag/version byte -/

theorem tag_byte_plain (v t : Nat) : (v &&& 0xf) ||| (t <<< 4) = t * 16 + v % 16 := by
  rw [and_0xf, Nat.lor_comm, Nat.shiftLeft_eq]
  have h := Nat.mul_add_lt_is_or (Nat.mod_lt v (by decide : 0 < 2 ^ 4)) t
  have e1 : t * 2 ^ 4 = 2 ^ 4 * t := Nat.mul_comm _ _
  have e2 : v % 16 = v % 2 ^ 4 := by norm_num
  rw [e1, e2, ← h]
  omega

/-- C5: once there is room for one byte, the byte `write` leaves at the offset is the
code's `(version & 0xf) | ((type << 4) & 0xf0)`, which for a type below 16 - the six
enumerators USER=0, DELEGATE=1, GAP=2, JOIN=3, LEAVE=4, INSTALL=5 among them - is
`(version & 0xf) | (type << 4)`; `read` sets version to the low nibble and type to the
high nibble of the byte at the offset; so a version in 0..15 and any of the six types
survive `write` followed by `read`. -/
theorem C5_tag_version_byte (bo : ByteOrder) (m m0 : EVSMessage) (buf : Buf) (buflen offset : Nat)
    (hlen : offset + 1 ≤ buflen) :
    (m.write bo buf buflen offset).2 offset =
      ((m.version &&& 0xf) ||| ((m.type <<< 4) &&& 0xf0)) % 256 ∧
    (m.type < 16 →
      (m.write bo buf buflen offset).2 offset = (m.version &&& 0xf) ||| (m.type <<< 4)) ∧
    (USER = 0 ∧ DELEGATE = 1 ∧ GAP = 2 ∧ JOIN = 3 ∧ LEAVE = 4 ∧ INSTALL = 5) ∧
    (EVSMessage.read bo m0 buf buflen offset).2.version = buf offset % 256 % 16 ∧
    (EVSMessage.read bo m0 buf buflen offset).2.type = buf offset % 256 / 16 ∧
    (m.version < 16 → m.type ≤ INSTALL →
      (read_back bo m m0 buf buflen offset).2.version = m.version ∧
      (read_back bo m m0 buf buflen offset).2.type = m.type) := by
  have hw := write_tag_byte bo m buf buflen offset hlen
  have hr := read_tag bo m0 buf buflen offset hlen
  refine ⟨hw, ?_, ⟨rfl, rfl, rfl, rfl, rfl, rfl⟩, ?_, ?_, ?_⟩
  · intro ht
    rw [hw, tag_byte_eq, tag_byte_plain]
    omega
  · rw [hr.1, and_0xf]
  · rw [hr.2, shr4_and_0xf]
    omega
  · intro hv ht
    unfold INSTALL at ht
    have hn := tag_byte_nibbles m.version m.type (by omega)
    have hr2 := read_tag bo m0 (m.write bo buf buflen offset).2 buflen offset hlen
    unfold read_back
    rw [hr2.1, hr2.2, hw, Nat.mod_mod, hn.1, hn.2]
    exact ⟨Nat.mod_eq_of_lt hv, rfl⟩

/-- C5 at the sample join message, whose version 9 is what its storage held: one byte
of buffer is enough, the byte is `0x39`, and the pair survives the round trip. -/
theorem C5_tag_version_byte_witness :
    0 + 1 ≤ 1 ∧
    EVSMessage.join raw0 seqnoMaxS addrNil JOIN (view7 ByteOrder.big) 20 30 =
      Except.ok sampleJoin ∧
    (sampleJoin.write ByteOrder.little zeroBuf 1 0).2 0 = 0x39 ∧
    (read_back ByteOrder.little sampleJoin sampleFresh zeroBuf 1 0).2.version = 9 ∧
    (read_back ByteOrder.little sampleJoin sampleFresh zeroBuf 1 0).2.type = JOIN :=
  ⟨by decide, rfl,
    (C5_tag_version_byte ByteOrder.little sampleJoin sampleFresh zeroBuf 1 0
      (by decide)).2.1 (by decide),
    ((C5_tag_version_byte ByteOrder.little sampleJoin sampleFresh zeroBuf 1 0
      (by decide)).2.2.2.2.2 (by decide) (by decide)).1,
    ((C5_tag_version_byte ByteOrder.little sampleJoin sampleFresh zeroBuf 1 0
      (by decide)).2.2.2.2.2 (by decide) (by decide)).2⟩

/-! ## C6: the worked example -/

/-- C6, refuted as stated: the first byte `write` stores for the user message of the
worked example is not `0x30`, in either byte order. -/
theorem C6_first_byte_is_not_0x30 :
    EVSMessage.user raw0 seqnoMaxS addrNil USER SAFE 42 3 40 (view7 ByteOrder.big) 0 =
      Except.ok (sampleUser ByteOrder.big) ∧
    ((sampleUser ByteOrder.big).write ByteOrder.big zeroBuf 20 0).1 = 20 ∧
    ((sampleUser ByteOrder.big).write ByteOrder.big zeroBuf 20 0).2 0 ≠ 0x30 ∧
    ((sampleUser ByteOrder.little).write ByteOrder.little zeroBuf 20 0).2 0 ≠ 0x30 := by
  refine ⟨rfl, by decide, by decide, by decide⟩

/-- C6, amended: the user message with SAFE, seq 42, seq_range 3, aru_seq 40, flags 0 and
view sequence 7 is built by its constructor with version 0; `write` at offset 0 of a
20-byte buffer returns 20, changes no byte from index 20 on, and the first byte it
stores is `0x00` (tag USER = 0 in the high nibble, version 0 in the low nibble). -/
theorem C6_sample_user_first_byte (bo : ByteOrder) (buf : Buf) :
    EVSMessage.user raw0 seqnoMaxS addrNil USER SAFE 42 3 40 (view7 bo) 0 =
      Except.ok (sampleUser bo) ∧
    ((sampleUser bo).write bo buf 20 0).1 = 20 ∧
    ((sampleUser bo).write bo buf 20 0).2 0 = 0x00 ∧
    (∀ i, 20 ≤ i → ((sampleUser bo).write bo buf 20 0).2 i = buf i) := by
  have hw := write_user_eq bo (sampleUser bo) buf 20 0 rfl (by decide) (by decide)
  rw [hw]
  refine ⟨rfl, rfl, ?_, ?_⟩
  · have h := userImage_at0 bo (sampleUser bo) buf 0
    simpa using h
  · intro i hi
    simp only [userImage]
    repeat rw [memcpy_to_outside _ _ _ _ (by simp [uint32_bytes_length]; omega)]

/-! ## C7: the version on decode -/

theorem tag_nibble_eq (x : Nat) : ((x % 256) >>> 4) &&& 0xf = x % 256 / 16 := by
  rw [shr4_and_0xf]
  omega

/-- C7, refuted as stated: a one-byte buffer holding `0x21` (tag GAP, version 1) is
read with success, returning offset 1 and storing version 1; a 20-byte user message
whose first byte is `0x05` (tag USER, version 5) is read with success, returning 20. -/
theorem C7_nonzero_version_is_accepted :
    bufOf [0x21] 0 % 16 ≠ 0 ∧
    (EVSMessage.read ByteOrder.big sampleFresh (bufOf [0x21]) 1 0).1 = 1 ∧
    (EVSMessage.read ByteOrder.big sampleFresh (bufOf [0x21]) 1 0).2.version = 1 ∧
    (EVSMessage.read ByteOrder.big sampleFresh (bufOf [0x21]) 1 0).2.type = GAP ∧
    (EVSMessage.read ByteOrder.big sampleFresh
      (bufOf [0x05, 4, 3, 0, 0, 0, 0, 42, 0, 0, 0, 40, 1, 2, 3, 4, 5, 6, 7, 8]) 20 0).1 = 20 ∧
    (EVSMessage.read ByteOrder.big sampleFresh
      (bufOf [0x05, 4, 3, 0, 0, 0, 0, 42, 0, 0, 0, 40, 1, 2, 3, 4, 5, 6, 7, 8]) 20 0).2.version
      = 5 := by
  decide

/-- C7, amended: `read` does not look at the version. Once there is one byte to take, it
stores the low nibble of the byte at the offset as version whatever its value, and it
succeeds exactly when the buffer is long enough for the variant the tag nibble selects:
20 bytes for USER, 4 bytes and the address for DELEGATE, the one byte for every other
tag. -/
theorem C7_read_accepts_every_version (bo : ByteOrder) (m0 : EVSMessage) (buf : Buf)
    (buflen offset : Nat) (hlen : offset + 1 ≤ buflen) (hsz : buflen + 8 < SIZE_MOD) :
    (EVSMessage.read bo m0 buf buflen offset).2.version = buf offset % 256 % 16 ∧
    ((EVSMessage.read bo m0 buf buflen offset).1 ≠ 0 ↔
      (buf offset % 256 / 16 = USER → offset + 20 ≤ buflen) ∧
      (buf offset % 256 / 16 = DELEGATE → offset + 4 + m0.source.size ≤ buflen)) := by
  have hr := read_tag bo m0 buf buflen offset hlen
  refine ⟨by rw [hr.1, and_0xf], ?_⟩
  have ht := tag_nibble_eq (buf offset)
  by_cases hu : buf offset % 256 / 16 = USER
  · have hud : ¬ (buf offset % 256 / 16 = DELEGATE) := by rw [hu]; decide
    by_cases h20 : offset + 20 ≤ buflen
    · rw [read_user_eq bo m0 buf buflen offset (by rw [ht]; exact hu) h20 (by omega)]
      simp only [hu, hud, h20]
      simp [USER, DELEGATE]
    · rw [(read_user_short bo m0 buf buflen offset (by rw [ht]; exact hu) hlen (by omega) hsz).1]
      simp only [hu, hud, h20]
      simp [USER, DELEGATE]
  by_cases hd : buf offset % 256 / 16 = DELEGATE
  · by_cases h4 : offset + 4 + m0.source.size ≤ buflen
    · rw [read_delegate_eq bo m0 buf buflen offset (by rw [ht]; exact hd) h4 (by omega)]
      simp only [hu, hd, h4]
      simp [USER, DELEGATE]
    · rw [read_delegate_short bo m0 buf buflen offset (by rw [ht]; exact hd) hlen (by omega) hsz]
      simp only [hu, hd, h4]
      simp [USER, DELEGATE]
  rw [read_other_eq bo m0 buf buflen offset (by rw [ht]; exact hu) (by rw [ht]; exact hd) hlen]
  simp only [hu, hd]
  simp [USER, DELEGATE]

/-- C7 amended, at the one-byte buffer `0x21`: version 1 is stored and the read
succeeds. -/
theorem C7_read_accepts_every_version_witness :
    0 + 1 ≤ 1 ∧
    (EVSMessage.read ByteOrder.big sampleFresh (bufOf [0x21]) 1 0).2.version = 0x21 % 256 % 16 ∧
    (EVSMessage.read ByteOrder.big sampleFresh (bufOf [0x21]) 1 0).1 ≠ 0 :=
  ⟨by decide,
    (C7_read_accepts_every_version ByteOrder.big sampleFresh (bufOf [0x21]) 1 0 (by decide)
      (by decide)).1,
    (C7_read_accepts_every_version ByteOrder.big sampleFresh (bufOf [0x21]) 1 0 (by decide)
      (by decide)).2.2 ⟨by decide, by decide⟩⟩

/-! ## C8: bounds of write -/

theorem userImage_outside (bo : ByteOrder) (m : EVSMessage) (buf : Buf) (offset i : Nat)
    (hi : i < offset ∨ offset + 20 ≤ i) : userImage bo m buf offset i = buf i := by
  unfold userImage
  have hl : (List.take 8 m.source_view.uuid).length ≤ 8 := by simp
  rw [memcpy_to_outside _ _ _ _ (by omega)]
  repeat rw [memcpy_to_outside _ _ _ _ (by simp [uint32_bytes_length]; omega)]

theorem delegateImage_outside (m : EVSMessage) (buf : Buf) (offset i : Nat)
    (hi : i < offset ∨ offset + 4 + m.source.size ≤ i) : delegateImage m buf offset i = buf i := by
  unfold delegateImage
  unfold Address.size at hi
  rw [memcpy_to_outside _ _ _ _ (by omega)]
  repeat rw [memcpy_to_outside _ _ _ _ (by simp; omega)]

/-- C8, refuted as stated: the gap message of the worked example has `size()` 0, so the
claim forbids any change at index 0 = min(buflen, offset + size()), yet `write` at
offset 0 of a one-byte buffer stores the tag byte `0x29` there. -/
theorem C8_gap_write_stores_the_tag :
    EVSMessage.gapmsg raw0 addrNil GAP 5
      { source := addrA, range := { low := 10, high := 20 } } = Except.ok sampleGap ∧
    sampleGap.size = 0 ∧
    min 1 (0 + sampleGap.size) ≤ 0 ∧
    zeroBuf 0 = 0 ∧
    (sampleGap.write ByteOrder.big zeroBuf 1 0).2 0 = 0x29 := by
  refine ⟨rfl, by decide, by decide, rfl, by decide⟩

/-- C8, amended: on a buffer whose length leaves the offset arithmetic within `size_t`,
for every USER or DELEGATE message `write` returns 0 when `buflen < offset + size()`,
and, whether it succeeds or fails, changes no byte below the offset and no byte at an
index `>= min(buflen, offset + size())`; for a message of any other tag, whose `size()`
is 0, `write` changes at most the byte at the offset, and no byte at all when
`buflen <= offset`. -/
theorem C8_write_bounds (bo : ByteOrder) (m : EVSMessage) (buf : Buf) (buflen offset : Nat)
    (hsz : buflen + 8 < SIZE_MOD) (hsrc : 4 + m.source.size < SIZE_MOD) :
    ((m.type = USER ∨ m.type = DELEGATE) → buflen < offset + m.size →
      (m.write bo buf buflen offset).1 = 0) ∧
    ((m.type = USER ∨ m.type = DELEGATE) →
      ∀ i, (i < offset ∨ min buflen (offset + m.size) ≤ i) →
        (m.write bo buf buflen offset).2 i = buf i) ∧
    (m.type ≠ USER → m.type ≠ DELEGATE →
      m.size = 0 ∧ ∀ i, (i ≠ offset ∨ buflen ≤ offset) →
        (m.write bo buf buflen offset).2 i = buf i) := by
  refine ⟨?_, ?_, ?_⟩
  · rintro (hu | hd) hshort
    · rw [size_user m hu] at hshort
      exact (write_user_short bo m buf buflen offset hu hsz hshort).1
    · rw [size_delegate m hd hsrc] at hshort
      exact (write_delegate_short bo m buf buflen offset hd (by omega)).1
  · rintro (hu | hd) i hi
    · rw [size_user m hu] at hi
      by_cases h20 : offset + 20 ≤ buflen
      · rw [write_user_eq bo m buf buflen offset hu h20 (by omega)]
        exact userImage_outside bo m buf offset i (by omega)
      · exact (write_user_short bo m buf buflen offset hu hsz (by omega)).2.1 i (by omega)
    · rw [size_delegate m hd hsrc] at hi
      by_cases h4 : offset + 4 + m.source.size ≤ buflen
      · rw [write_delegate_eq bo m buf buflen offset hd h4]
        exact delegateImage_outside m buf offset i (by omega)
      · exact (write_delegate_short bo m buf buflen offset hd (by omega)).2.1 i (by omega)
  · intro hu hd
    refine ⟨size_other m hu hd, fun i hi => ?_⟩
    by_cases h1 : offset + 1 ≤ buflen
    · rw [write_other_eq bo m buf buflen offset hu hd h1]
      exact memcpy_to_outside _ _ _ _ (by simp; omega)
    · rw [write_first_fail bo m buf buflen offset (by omega)]

/-- C8 amended, at the worked example on a 19-byte buffer, one byte short: `write`
fails and the byte just past the buffer is untouched. -/
theorem C8_write_bounds_witness :
    (19 : Nat) + 8 < SIZE_MOD ∧ 4 + (sampleUser ByteOrder.big).source.size < SIZE_MOD ∧
    (19 : Nat) < 0 + (sampleUser ByteOrder.big).size ∧
    ((sampleUser ByteOrder.big).write ByteOrder.big zeroBuf 19 0).1 = 0 ∧
    ((sampleUser ByteOrder.big).write ByteOrder.big zeroBuf 19 0).2 19 = zeroBuf 19 :=
  ⟨by decide, by decide, by decide,
    (C8_write_bounds ByteOrder.big (sampleUser ByteOrder.big) zeroBuf 19 0 (by decide)
      (by decide)).1 (Or.inl rfl) (by decide),
    (C8_write_bounds ByteOrder.big (sampleUser ByteOrder.big) zeroBuf 19 0 (by decide)
      (by decide)).2.1 (Or.inl rfl) 19 (Or.inr (by decide))⟩

/-! ## C9: truncated input -/

/-- C9: let `n` be the length of the encoding `write` produces for a message `m` at
offset 0. For every `k < n`, `read` at offset 0 with `buflen = k` on any memory that
holds the first `k` bytes of that encoding returns the failure value 0; the receiving
object's address has the fixed address size. This holds for the user layout, for the
delegate layout, whose padding is skipped without a check of its own, and for the
one-byte encoding of the other tags. -/
theorem C9_truncated_read_fails (bo : ByteOrder) (m m0 : EVSMessage) (buf b : Buf)
    (buflen n k : Nat) (hwf : m.wf) (hsrc : m0.source.size = m.source.size)
    (hsz : buflen + 8 < SIZE_MOD) (hn : (m.write bo buf buflen 0).1 = n) (hk : k < n)
    (hb : ∀ i, i < k → b i = (m.write bo buf buflen 0).2 i) :
    (EVSMessage.read bo m0 b k 0).1 = 0 := by
  by_cases hk0 : k = 0
  · rw [hk0, read_first_fail bo m0 b 0 0 (by omega)]
  have h1 : 0 + 1 ≤ buflen := by
    by_contra hc
    rw [write_first_fail bo m buf buflen 0 (by omega)] at hn
    simp only [] at hn
    omega
  have hb0 : b 0 = ((m.version &&& 0xf) ||| ((m.type <<< 4) &&& 0xf0)) % 256 := by
    rw [hb 0 (by omega)]
    exact write_tag_byte bo m buf buflen 0 h1
  have hn4 : ((b 0 % 256) >>> 4) &&& 0xf = m.type := by
    rw [hb0, Nat.mod_mod]
    exact (tag_byte_nibbles m.version m.type hwf.1).2
  by_cases hu : m.type = USER
  · have hn20 : n = 20 := by
      by_cases h20 : 0 + 20 ≤ buflen
      · rw [write_user_eq bo m buf buflen 0 hu h20 (by omega)] at hn
        simp only [] at hn
        omega
      · rw [(write_user_short bo m buf buflen 0 hu hsz (by omega)).1] at hn
        omega
    exact (read_user_short bo m0 b k 0 (by rw [hn4]; exact hu) (by omega) (by omega)
      (by unfold SIZE_MOD; omega)).1
  by_cases hd : m.type = DELEGATE
  · have hn4s : n = 4 + m.source.size ∧ 4 + m.source.size ≤ buflen := by
      by_cases h4 : 0 + 4 + m.source.size ≤ buflen
      · rw [write_delegate_eq bo m buf buflen 0 hd h4] at hn
        simp only [] at hn
        omega
      · rw [(write_delegate_short bo m buf buflen 0 hd (by omega)).1] at hn
        omega
    rw [read_delegate_short bo m0 b k 0 (by rw [hn4]; exact hd) (by omega) (by omega)
      (by omega)]
  rw [write_other_eq bo m buf buflen 0 hu hd h1] at hn
  simp only [] at hn
  omega

/-- C9 at the worked example: its 20-byte encoding cut to 19 bytes is rejected, and so
is the 8-byte encoding of the sample delegate message cut to 3 bytes, inside its
padding. -/
theorem C9_truncated_read_fails_witness :
    (sampleUser ByteOrder.big).wf ∧
    ((sampleUser ByteOrder.big).write ByteOrder.big zeroBuf 64 0).1 = 20 ∧
    (EVSMessage.read ByteOrder.big sampleFresh
      ((sampleUser ByteOrder.big).write ByteOrder.big zeroBuf 64 0).2 19 0).1 = 0 ∧
    (sampleDelegate.write ByteOrder.big zeroBuf 64 0).1 = 8 ∧
    (EVSMessage.read ByteOrder.big sampleFresh
      (sampleDelegate.write ByteOrder.big zeroBuf 64 0).2 3 0).1 = 0 :=
  ⟨by decide, by decide,
    C9_truncated_read_fails ByteOrder.big (sampleUser ByteOrder.big) sampleFresh zeroBuf
      ((sampleUser ByteOrder.big).write ByteOrder.big zeroBuf 64 0).2 64 20 19
      (by decide) (by decide) (by decide) (by decide) (by decide) (fun _ _ => rfl),
    by decide,
    C9_truncated_read_fails ByteOrder.big sampleDelegate sampleFresh zeroBuf
      (sampleDelegate.write ByteOrder.big zeroBuf 64 0).2 64 8 3
      (by decide) (by decide) (by decide) (by decide) (by decide) (fun _ _ => rfl)⟩

/-! ## C10: the constructors check the tag -/

/-- C10: each of the five constructors throws exactly when the supplied tag is not the
one of the variant it builds (USER; DELEGATE; GAP; JOIN or INSTALL; LEAVE), and when it
succeeds `get_type()` returns the supplied tag and the accessor of every supplied member
returns the supplied value. -/
theorem C10_constructors_check_tag (raw : EVSMessage) (SEQNO_MAX : Nat) (addr0 : Address)
    (type_ sp_ seq_ seq_range_ aru_seq_ flags_ safe_seq_ : Nat) (vid_ : EVSViewId)
    (source_ : Address) (gap_ : EVSGap) :
    (((∃ e, EVSMessage.user raw SEQNO_MAX addr0 type_ sp_ seq_ seq_range_ aru_seq_ vid_ flags_ =
          Except.error e) ↔ type_ ≠ USER) ∧
      (type_ = USER → ∃ m,
        EVSMessage.user raw SEQNO_MAX addr0 type_ sp_ seq_ seq_range_ aru_seq_ vid_ flags_ =
          Except.ok m ∧
        m.get_type = type_ ∧ EVSMessage.get_safety_prefix m = sp_ ∧ m.get_seq = seq_ ∧
        m.get_seq_range = seq_range_ ∧ m.get_aru_seq = aru_seq_ ∧
        m.get_source_view = vid_ ∧ m.get_flags = flags_)) ∧
    (((∃ e, EVSMessage.delegate raw SEQNO_MAX addr0 type_ source_ = Except.error e) ↔
          type_ ≠ DELEGATE) ∧
      (type_ = DELEGATE → ∃ m,
        EVSMessage.delegate raw SEQNO_MAX addr0 type_ source_ = Except.ok m ∧
        m.get_type = type_ ∧ m.get_source = source_)) ∧
    (((∃ e, EVSMessage.gapmsg raw addr0 type_ seq_ gap_ = Except.error e) ↔ type_ ≠ GAP) ∧
      (type_ = GAP → ∃ m,
        EVSMessage.gapmsg raw addr0 type_ seq_ gap_ = Except.ok m ∧
        m.get_type = type_ ∧ m.get_seq = seq_ ∧ m.get_gap = gap_)) ∧
    (((∃ e, EVSMessage.join raw SEQNO_MAX addr0 type_ vid_ aru_seq_ safe_seq_ =
          Except.error e) ↔ ¬ (type_ = JOIN ∨ type_ = INSTALL)) ∧
      (type_ = JOIN ∨ type_ = INSTALL → ∃ m,
        EVSMessage.join raw SEQNO_MAX addr0 type_ vid_ aru_seq_ safe_seq_ = Except.ok m ∧
        m.get_type = type_ ∧ m.get_source_view = vid_ ∧ m.get_aru_seq = aru_seq_ ∧
        m.get_seq = safe_seq_)) ∧
    (((∃ e, EVSMessage.leave raw SEQNO_MAX addr0 type_ vid_ = Except.error e) ↔
          type_ ≠ LEAVE) ∧
      (type_ = LEAVE → ∃ m,
        EVSMessage.leave raw SEQNO_MAX addr0 type_ vid_ = Except.ok m ∧
        m.get_type = type_ ∧ m.get_source_view = vid_)) := by
  refine ⟨⟨?_, ?_⟩, ⟨?_, ?_⟩, ⟨?_, ?_⟩, ⟨?_, ?_⟩, ⟨?_, ?_⟩⟩
  · unfold EVSMessage.user
    by_cases h : type_ = USER <;> simp [h]
  · intro h
    unfold EVSMessage.user
    simp [h, EVSMessage.get_type, EVSMessage.get_safety_prefix, EVSMessage.get_seq,
      EVSMessage.get_seq_range, EVSMessage.get_aru_seq, EVSMessage.get_source_view,
      EVSMessage.get_flags]
  · unfold EVSMessage.delegate
    by_cases h : type_ = DELEGATE <;> simp [h]
  · intro h
    unfold EVSMessage.delegate
    simp [h, EVSMessage.get_type, EVSMessage.get_source]
  · unfold EVSMessage.gapmsg
    by_cases h : type_ = GAP <;> simp [h]
  · intro h
    unfold EVSMessage.gapmsg
    simp [h, EVSMessage.get_type, EVSMessage.get_seq, EVSMessage.get_gap]
  · unfold EVSMessage.join
    by_cases h1 : type_ = JOIN <;> by_cases h2 : type_ = INSTALL <;> simp [h1, h2]
  · intro h
    unfold EVSMessage.join
    rcases h with h | h <;>
      simp [h, EVSMessage.get_type, EVSMessage.get_seq, EVSMessage.get_aru_seq,
        EVSMessage.get_source_view]
  · unfold EVSMessage.leave
    by_cases h : type_ = LEAVE <;> simp [h]
  · intro h
    unfold EVSMessage.leave
    simp [h, EVSMessage.get_type, EVSMessage.get_source_view]

/-! ## C11: the membership collections after construction -/

/-- C11: a message built by the user, delegate or gap constructor has its three
collections null, and one built by the join/install constructor has all three present
and empty; the leave constructor, however, has no initialiser for the three pointers, so
a leave message keeps whatever its storage held: built in storage with non-null content,
`get_operational()` does not return null. -/
theorem C11_collections_after_construction (raw : EVSMessage) (SEQNO_MAX : Nat)
    (addr0 : Address) (type_ sp_ seq_ seq_range_ aru_seq_ flags_ safe_seq_ : Nat)
    (vid_ : EVSViewId) (source_ : Address) (gap_ : EVSGap) :
    (∀ m, EVSMessage.user raw SEQNO_MAX addr0 type_ sp_ seq_ seq_range_ aru_seq_ vid_ flags_ =
        Except.ok m →
      m.get_operational = none ∧ m.untr_inst = none ∧ m.unop_inst = none) ∧
    (∀ m, EVSMessage.delegate raw SEQNO_MAX addr0 type_ source_ = Except.ok m →
      m.get_operational = none ∧ m.untr_inst = none ∧ m.unop_inst = none) ∧
    (∀ m, EVSMessage.gapmsg raw addr0 type_ seq_ gap_ = Except.ok m →
      m.get_operational = none ∧ m.untr_inst = none ∧ m.unop_inst = none) ∧
    (∀ m, EVSMessage.join raw SEQNO_MAX addr0 type_ vid_ aru_seq_ safe_seq_ = Except.ok m →
      m.get_operational = some [] ∧ m.untr_inst = some [] ∧ m.unop_inst = some []) ∧
    (∀ m, EVSMessage.leave raw SEQNO_MAX addr0 type_ vid_ = Except.ok m →
      m.get_operational = raw.oper_inst ∧ m.untr_inst = raw.untr_inst ∧
      m.unop_inst = raw.unop_inst) ∧
    (EVSMessage.leave rawDirty seqnoMaxS addrNil LEAVE (view7 ByteOrder.big) =
        Except.ok sampleLeave ∧
      sampleLeave.get_operational = some [(addrA, { low := 1, high := 2 })] ∧
      sampleLeave.get_operational ≠ none ∧
      sampleLeave.untr_inst ≠ none ∧ sampleLeave.unop_inst ≠ none) := by
  refine ⟨?_, ?_, ?_, ?_, ?_, ⟨rfl, rfl, by decide, by decide, by decide⟩⟩
  · intro m h
    unfold EVSMessage.user at h
    simp only [] at h
    split_ifs at h
    cases h
    exact ⟨rfl, rfl, rfl⟩
  · intro m h
    unfold EVSMessage.delegate at h
    simp only [] at h
    split_ifs at h
    cases h
    exact ⟨rfl, rfl, rfl⟩
  · intro m h
    unfold EVSMessage.gapmsg at h
    simp only [] at h
    split_ifs at h
    cases h
    exact ⟨rfl, rfl, rfl⟩
  · intro m h
    unfold EVSMessage.join at h
    simp only [] at h
    split_ifs at h
    cases h
    exact ⟨rfl, rfl, rfl⟩
  · intro m h
    unfold EVSMessage.leave at h
    simp only [] at h
    split_ifs at h
    cases h
    exact ⟨rfl, rfl, rfl⟩

/-! ## C13: the version after construction -/

/-- C13: the user constructor sets version 0, so the low nibble of the first byte
`write` stores for a user message is 0; the delegate, gap, join/install and leave
constructors have no initialiser for the version, so their message keeps the version its
storage held: the delegate message built in storage holding 9 has version 9 and `write`
stores `0x19` as its first byte, low nibble 9. -/
theorem C13_version_after_construction (bo : ByteOrder) (raw : EVSMessage) (SEQNO_MAX : Nat)
    (addr0 : Address) (type_ sp_ seq_ seq_range_ aru_seq_ flags_ safe_seq_ : Nat)
    (vid_ : EVSViewId) (source_ : Address) (gap_ : EVSGap) (buf : Buf) (buflen offset : Nat) :
    (∀ m, EVSMessage.user raw SEQNO_MAX addr0 type_ sp_ seq_ seq_range_ aru_seq_ vid_ flags_ =
        Except.ok m →
      m.version = 0 ∧ (offset + 1 ≤ buflen → (m.write bo buf buflen offset).2 offset % 16 = 0)) ∧
    (∀ m, EVSMessage.delegate raw SEQNO_MAX addr0 type_ source_ = Except.ok m →
      m.version = raw.version) ∧
    (∀ m, EVSMessage.gapmsg raw addr0 type_ seq_ gap_ = Except.ok m → m.version = raw.version) ∧
    (∀ m, EVSMessage.join raw SEQNO_MAX addr0 type_ vid_ aru_seq_ safe_seq_ = Except.ok m →
      m.version = raw.version) ∧
    (∀ m, EVSMessage.leave raw SEQNO_MAX addr0 type_ vid_ = Except.ok m →
      m.version = raw.version) ∧
    (EVSMessage.delegate raw0 seqnoMaxS addrNil DELEGATE addrA = Except.ok sampleDelegate ∧
      sampleDelegate.version = 9 ∧
      (sampleDelegate.write ByteOrder.big zeroBuf 8 0).1 = 8 ∧
      (sampleDelegate.write ByteOrder.big zeroBuf 8 0).2 0 = 0x19 ∧
      (sampleDelegate.write ByteOrder.big zeroBuf 8 0).2 0 % 16 = 9) := by
  refine ⟨?_, ?_, ?_, ?_, ?_, ⟨rfl, rfl, by decide, by decide, by decide⟩⟩
  · intro m h
    unfold EVSMessage.user at h
    simp only [] at h
    split_ifs at h
    cases h
    refine ⟨rfl, fun hlen => ?_⟩
    rw [write_tag_byte bo _ buf buflen offset hlen, tag_byte_eq]
    simp only []
    omega
  · intro m h
    unfold EVSMessage.delegate at h
    simp only [] at h
    split_ifs at h
    cases h
    rfl
  · intro m h
    unfold EVSMessage.gapmsg at h
    simp only [] at h
    split_ifs at h
    cases h
    rfl
  · intro m h
    unfold EVSMessage.join at h
    simp only [] at h
    split_ifs at h
    cases h
    rfl
  · intro m h
    unfold EVSMessage.leave at h
    simp only [] at h
    split_ifs at h
    cases h
    rfl

/-! ## C15: the comparison of two messages -/

/-- C15, refuted as stated: `equal` of the user message of the worked example with
itself is false. -/
theorem C15_equal_is_not_reflexive :
    equal (sampleUser ByteOrder.big) (sampleUser ByteOrder.big) = false ∧
    equal sampleJoin sampleJoin = false ∧
    ¬ (∀ a : EVSMessage, equal a a = true) := by
  refine ⟨by decide, by decide, fun h => ?_⟩
  have h1 := h sampleJoin
  revert h1
  decide

/-- C15, amended: `equal(a, b)` returns false whenever the tags of `a` and `b` differ,
and it also returns false when the tags agree, for every variant and whatever the
members hold: the per-variant comparison is not implemented; in particular
`equal(a, a)` is false for every message. -/
theorem C15_equal_always_false (a b : EVSMessage) :
    (a.get_type ≠ b.get_type → equal a b = false) ∧
    (a.get_type = b.get_type → equal a b = false) ∧
    equal a a = false := by
  have h : ∀ x y : EVSMessage, equal x y = false := by
    intro x y
    unfold equal
    split_ifs
    · rfl
    · split <;> rfl
  exact ⟨fun _ => h a b, fun _ => h a b, h a a⟩

/-! ## C18: the order of the safety prefixes -/

/-- C18: under the comparison of the underlying values DROP < UNRELIABLE < FIFO < AGREED
< SAFE; on the five enumerators the comparison is irreflexive, transitive and any two
distinct ones are comparable; the five values are distinct and each fits the four-bit
field, so `safety_prefix & 0xf` gives it back, and that is the byte `write` stores
for it. -/
theorem C18_safety_prefix_order :
    (DROP < UNRELIABLE ∧ UNRELIABLE < FIFO ∧ FIFO < AGREED ∧ AGREED < SAFE) ∧
    (∀ a ∈ safety_prefixes, ¬ a < a) ∧
    (∀ a ∈ safety_prefixes, ∀ b ∈ safety_prefixes, ∀ c ∈ safety_prefixes,
      a < b → b < c → a < c) ∧
    (∀ a ∈ safety_prefixes, ∀ b ∈ safety_prefixes, a ≠ b → a < b ∨ b < a) ∧
    safety_prefixes.Nodup ∧
    (∀ a ∈ safety_prefixes, a < 16 ∧ a &&& 0xf = a) ∧
    (∀ a ∈ safety_prefixes, ∀ bo : ByteOrder,
      ({ sampleUser bo with safety_prefix := a }.write bo zeroBuf 20 0).2 1 = a) := by
  refine ⟨by decide, by decide, by decide, by decide, by decide, by decide, ?_⟩
  intro a ha bo
  have hw := write_user_eq bo { sampleUser bo with safety_prefix := a } zeroBuf 20 0 rfl
    (by decide) (by decide)
  rw [hw]
  have h1 := userImage_at1 bo { sampleUser bo with safety_prefix := a } zeroBuf 0
  simp only [Nat.zero_add] at h1
  simp only []
  rw [h1]
  simp only [safety_prefixes, DROP, UNRELIABLE, FIFO, AGREED, SAFE, List.mem_cons,
    List.mem_singleton, List.not_mem_nil, or_false] at ha
  rcases ha with h | h | h | h | h <;> subst h <;> rfl

/-! ## C20: the tags without a payload -/

/-- C20: for a message of type GAP, JOIN, LEAVE or INSTALL, `write` succeeds exactly when
`offset < buflen`; it then returns `offset + 1`, stores the tag/version byte at the offset
and changes no other byte, and when it fails it changes nothing; `size()` and
`get_hdrlen()` are 0. For every buffer with `offset < buflen` whose tag nibble at the
offset is 2 .. 15, `read` returns `offset + 1` and the object after it differs from the
object before only in version and type: seq, aru_seq, the source view, the gap and the
collections are as they were. -/
theorem C20_header_only_tags (bo : ByteOrder) (m m0 : EVSMessage) (buf : Buf)
    (buflen offset : Nat) :
    ((m.type = GAP ∨ m.type = JOIN ∨ m.type = LEAVE ∨ m.type = INSTALL) →
      ((m.write bo buf buflen offset).1 ≠ 0 ↔ offset < buflen) ∧
      (offset < buflen →
        (m.write bo buf buflen offset).1 = offset + 1 ∧
        (m.write bo buf buflen offset).2 offset =
          ((m.version &&& 0xf) ||| ((m.type <<< 4) &&& 0xf0)) % 256 ∧
        ∀ i, i ≠ offset → (m.write bo buf buflen offset).2 i = buf i) ∧
      (¬ offset < buflen → (m.write bo buf buflen offset).2 = buf) ∧
      m.size = 0 ∧ m.get_hdrlen = 0) ∧
    (offset < buflen → 2 ≤ buf offset % 256 / 16 →
      (EVSMessage.read bo m0 buf buflen offset).1 = offset + 1 ∧
      (EVSMessage.read bo m0 buf buflen offset).2 =
        { m0 with version := buf offset % 256 % 16, type := buf offset % 256 / 16 } ∧
      (EVSMessage.read bo m0 buf buflen offset).2.seq = m0.seq ∧
      (EVSMessage.read bo m0 buf buflen offset).2.aru_seq = m0.aru_seq ∧
      (EVSMessage.read bo m0 buf buflen offset).2.source_view = m0.source_view ∧
      (EVSMessage.read bo m0 buf buflen offset).2.gap = m0.gap ∧
      (EVSMessage.read bo m0 buf buflen offset).2.oper_inst = m0.oper_inst ∧
      (EVSMessage.read bo m0 buf buflen offset).2.untr_inst = m0.untr_inst ∧
      (EVSMessage.read bo m0 buf buflen offset).2.unop_inst = m0.unop_inst) := by
  constructor
  · intro hty
    have hu : m.type ≠ USER := by
      rcases hty with h | h | h | h <;> rw [h] <;> decide
    have hd : m.type ≠ DELEGATE := by
      rcases hty with h | h | h | h <;> rw [h] <;> decide
    have hs := size_other m hu hd
    refine ⟨?_, ?_, ?_, hs, hs⟩
    · by_cases h1 : offset < buflen
      · rw [write_other_eq bo m buf buflen offset hu hd (by omega)]
        simp [h1]
      · rw [write_first_fail bo m buf buflen offset (by omega)]
        simp [h1]
    · intro h1
      rw [write_other_eq bo m buf buflen offset hu hd (by omega)]
      refine ⟨rfl, memcpy_to_one _ _ _, fun i hi => ?_⟩
      exact memcpy_to_outside _ _ _ _ (by simp; omega)
    · intro h1
      rw [write_first_fail bo m buf buflen offset (by omega)]
  · intro h1 h2
    have ht := tag_nibble_eq (buf offset)
    have hv := and_0xf (buf offset % 256)
    have hu : ((buf offset % 256) >>> 4) &&& 0xf ≠ USER := by
      rw [ht]; unfold USER; omega
    have hd : ((buf offset % 256) >>> 4) &&& 0xf ≠ DELEGATE := by
      rw [ht]; unfold DELEGATE; omega
    rw [read_other_eq bo m0 buf buflen offset hu hd (by omega)]
    simp only [tagDecoded, ht, hv]
    exact ⟨trivial, trivial, trivial, trivial, trivial, trivial, trivial, trivial, trivial⟩

/-! ## Runs of bytes -/

theorem memcpy_from_append (buf : Buf) (off n k : Nat) :
    memcpy_from buf off (n + k) = memcpy_from buf off n ++ memcpy_from buf (off + n) k := by
  apply List.ext_getElem
  · simp [memcpy_from]
  · intro i h1 h2
    simp only [memcpy_from, List.getElem_map, List.getElem_range, List.getElem_append,
      List.length_map, List.length_range]
    split_ifs with h
    · rfl
    · rw [Nat.add_assoc, Nat.add_sub_cancel' (Nat.le_of_not_lt h)]

theorem memcpy_from_one (buf : Buf) (off : Nat) : memcpy_from buf off 1 = [buf off % 256] := by
  have h : List.range 1 = [0] := by decide
  simp [memcpy_from, h]

theorem memcpy_from_four (buf : Buf) (off : Nat) :
    memcpy_from buf off 4 =
      [buf off % 256, buf (off + 1) % 256, buf (off + 2) % 256, buf (off + 3) % 256] := by
  have h : List.range 4 = [0, 1, 2, 3] := by decide
  simp [memcpy_from, h]

theorem uint32_bytes_of_bytes (bo : ByteOrder) (buf : Buf) (off : Nat) :
    uint32_bytes bo (uint32_of_bytes bo (memcpy_from buf off 4)) = memcpy_from buf off 4 := by
  rw [memcpy_from_four]
  cases bo <;> simp [uint32_of_bytes, uint32_bytes] <;> omega

theorem memcpy_from_mod (buf : Buf) (off n : Nat) :
    (memcpy_from buf off n).map (fun b => b % 256) = memcpy_from buf off n := by
  apply map_mod_of_bytes
  intro b hb
  simp only [memcpy_from, List.mem_map, List.mem_range] at hb
  obtain ⟨i, -, rfl⟩ := hb
  exact Nat.mod_lt _ (by decide)

theorem memcpy_from_bufOf (l1 l2 : List Nat) :
    memcpy_from (bufOf (l1 ++ l2)) l1.length l2.length = l2.map (fun b => b % 256) := by
  apply List.ext_getElem
  · simp [memcpy_from]
  · intro i h1 h2
    have hi : i < l2.length := by simpa [memcpy_from] using h1
    simp only [memcpy_from, bufOf, List.getElem_map, List.getElem_range]
    rw [List.getD_eq_getElem _ _ (by simp; omega), List.getElem_append_right (by omega)]
    simp

/-- The twenty bytes of the image of a user message. -/
theorem userImage_bytes (bo : ByteOrder) (m : EVSMessage) (buf : Buf) (offset : Nat)
    (hv : m.source_view.wf) :
    memcpy_from (userImage bo m buf offset) offset 20 =
      [((m.version &&& 0xf) ||| ((m.type <<< 4) &&& 0xf0)) % 256,
        EVSMessage.safety_prefix m % 16, m.seq_range % 256, m.flags % 256] ++
      (uint32_bytes bo m.seq ++ (uint32_bytes bo m.aru_seq ++ m.source_view.uuid)) := by
  have e : (20 : Nat) = 1 + (1 + (1 + (1 + (4 + (4 + 8))))) := rfl
  rw [e, memcpy_from_append, memcpy_from_append, memcpy_from_append, memcpy_from_append,
    memcpy_from_append, memcpy_from_append]
  simp only [memcpy_from_one, Nat.add_assoc, Nat.reduceAdd]
  rw [userImage_seq, userImage_aru, userImage_view bo m buf offset hv, userImage_at0,
    userImage_at1, userImage_at2, userImage_at3, tag_byte_eq]
  have e0 : (m.type % 16 * 16 + m.version % 16) % 256 % 256 =
      (m.type % 16 * 16 + m.version % 16) % 256 := Nat.mod_mod _ _
  have e1 : EVSMessage.safety_prefix m % 16 % 256 = EVSMessage.safety_prefix m % 16 := by omega
  have e2 : (m.type % 16 * 16 + m.version % 16) % 256 = m.type % 16 * 16 + m.version % 16 := by
    omega
  simp only [e1, e2, Nat.mod_mod, List.cons_append, List.nil_append, List.singleton_append]

/-- The bytes of the image of a delegate message. -/
theorem delegateImage_bytes (m : EVSMessage) (buf : Buf) (offset : Nat) (hs : m.source.wf) :
    memcpy_from (delegateImage m buf offset) offset (4 + m.source.size) =
      [((m.version &&& 0xf) ||| ((m.type <<< 4) &&& 0xf0)) % 256, 0, 0, 0] ++ m.source.raw := by
  have e : 4 + m.source.size = 1 + (1 + (1 + (1 + m.source.size))) := by omega
  rw [e, memcpy_from_append, memcpy_from_append, memcpy_from_append, memcpy_from_append]
  simp only [memcpy_from_one, Nat.add_assoc, Nat.reduceAdd]
  have hp := delegateImage_pad m buf offset
  rw [delegateImage_source m buf offset hs, delegateImage_at0, hp.1, hp.2.1, hp.2.2]
  simp only [Nat.mod_mod, Nat.zero_mod, List.cons_append, List.nil_append,
    List.singleton_append]

/-! ## C14: the header fast path -/

/-- C14: for every user message, and for every delegate message whose encoding fits in
32 bytes, `get_hdr()` succeeds, `get_hdrlen()` is the number of bytes `write` produces
into a caller buffer at offset 0, and the first `get_hdrlen()` bytes of the scratch area
are those bytes; for a delegate message whose encoding needs more than 32 bytes
`get_hdr()` throws "Short buffer"; in every case no cell past the 32 bytes of the scratch
area is changed. -/
theorem C14_header_fast_path (bo : ByteOrder) (m : EVSMessage) (hdrbuf buf : Buf) (buflen : Nat)
    (hwf : m.wf) (hsz : buflen + 8 < SIZE_MOD) :
    ((m.type = USER ∨ (m.type = DELEGATE ∧ 4 + m.source.size ≤ 32)) →
      (m.get_hdr bo hdrbuf).1 = Except.ok () ∧
      (∀ i, 32 ≤ i → (m.get_hdr bo hdrbuf).2 i = hdrbuf i) ∧
      ((m.write bo buf buflen 0).1 ≠ 0 →
        m.get_hdrlen = (m.write bo buf buflen 0).1 ∧
        memcpy_from (m.get_hdr bo hdrbuf).2 0 m.get_hdrlen =
          memcpy_from (m.write bo buf buflen 0).2 0 m.get_hdrlen)) ∧
    ((m.type = DELEGATE ∧ 32 < 4 + m.source.size) →
      (m.get_hdr bo hdrbuf).1 = Except.error "Short buffer" ∧
      (∀ i, 32 ≤ i → (m.get_hdr bo hdrbuf).2 i = hdrbuf i)) := by
  obtain ⟨-, -, -, -, -, -, h7, h8⟩ := hwf
  have h32 : (32 : Nat) < SIZE_MOD := by decide
  constructor
  · rintro (hu | ⟨hd, hfit⟩)
    · have hh := write_user_eq bo m hdrbuf 32 0 hu (by omega) h32
      unfold EVSMessage.get_hdr EVSMessage.get_hdrlen
      rw [hh, size_user m hu]
      refine ⟨by simp, fun i hi => ?_, fun hok => ?_⟩
      · simp only [Nat.zero_add, OfNat.ofNat_ne_zero, if_false]
        exact userImage_outside bo m hdrbuf 0 i (by omega)
      · have hlen : 0 + 20 ≤ buflen := by
          by_contra hc
          exact hok (write_user_short bo m buf buflen 0 hu hsz (by omega)).1
        rw [write_user_eq bo m buf buflen 0 hu hlen (by omega)]
        simp only [Nat.zero_add, OfNat.ofNat_ne_zero, if_false, true_and]
        rw [userImage_bytes bo m hdrbuf 0 h7, userImage_bytes bo m buf 0 h7]
    · have hh := write_delegate_eq bo m hdrbuf 32 0 hd (by omega)
      unfold EVSMessage.get_hdr EVSMessage.get_hdrlen
      rw [hh, size_delegate m hd (by unfold SIZE_MOD; omega)]
      refine ⟨by simp, fun i hi => ?_, fun hok => ?_⟩
      · simp only [Nat.zero_add, Nat.add_eq_zero, OfNat.ofNat_ne_zero, false_and, if_false]
        exact delegateImage_outside m hdrbuf 0 i (by omega)
      · have hlen : 0 + 4 + m.source.size ≤ buflen := by
          by_contra hc
          exact hok (write_delegate_short bo m buf buflen 0 hd (by omega)).1
        rw [write_delegate_eq bo m buf buflen 0 hd hlen]
        simp only [Nat.zero_add, Nat.add_eq_zero, OfNat.ofNat_ne_zero, false_and, if_false,
          true_and]
        rw [delegateImage_bytes m hdrbuf 0 h8, delegateImage_bytes m buf 0 h8]
  · rintro ⟨hd, hbig⟩
    have hs := write_delegate_short bo m hdrbuf 32 0 hd (by omega)
    unfold EVSMessage.get_hdr
    simp only [hs.1, if_true]
    exact ⟨trivial, fun i hi => hs.2.1 i (Or.inr hi)⟩

/-- C14 at the worked example and at a delegate message with a 29-byte address, whose
encoding needs 33 bytes. -/
theorem C14_header_fast_path_witness :
    (sampleUser ByteOrder.big).wf ∧ sampleWideDelegate.wf ∧
    ((sampleUser ByteOrder.big).get_hdr ByteOrder.big zeroBuf).1 = Except.ok () ∧
    (sampleUser ByteOrder.big).get_hdrlen =
      ((sampleUser ByteOrder.big).write ByteOrder.big zeroBuf 64 0).1 ∧
    (sampleWideDelegate.get_hdr ByteOrder.big zeroBuf).1 = Except.error "Short buffer" ∧
    (sampleWideDelegate.get_hdr ByteOrder.big zeroBuf).2 32 = zeroBuf 32 :=
  ⟨by decide, by decide,
    ((C14_header_fast_path ByteOrder.big (sampleUser ByteOrder.big) zeroBuf zeroBuf 64
      (by decide) (by decide)).1 (Or.inl rfl)).1,
    (((C14_header_fast_path ByteOrder.big (sampleUser ByteOrder.big) zeroBuf zeroBuf 64
      (by decide) (by decide)).1 (Or.inl rfl)).2.2 (by decide)).1,
    ((C14_header_fast_path ByteOrder.big sampleWideDelegate zeroBuf zeroBuf 64
      (by decide) (by decide)).2 ⟨rfl, by decide⟩).1,
    ((C14_header_fast_path ByteOrder.big sampleWideDelegate zeroBuf zeroBuf 64
      (by decide) (by decide)).2 ⟨rfl, by decide⟩).2 32 (by decide)⟩

/-! ## C19: write after read -/

/-- C19: on a buffer with at least 20 bytes from the offset whose byte at the offset has
high nibble 0, `read` succeeds, and `write` of the message it yields into another buffer
at the same offset succeeds and stores: at the offset the same byte, version nibble
included; at `offset + 1` the low nibble of the input byte, so the same byte when its
upper nibble is 0; from `offset + 2` on the same 18 bytes. With a zero upper nibble at
`offset + 1` the 20 bytes are reproduced exactly. -/
theorem C19_write_undoes_read (bo : ByteOrder) (m0 : EVSMessage) (buf out : Buf)
    (buflen offset : Nat) (hlen : offset + 20 ≤ buflen) (hsz : buflen < SIZE_MOD)
    (htag : buf offset % 256 / 16 = 0) :
    (EVSMessage.read bo m0 buf buflen offset).1 = offset + 20 ∧
    ((EVSMessage.read bo m0 buf buflen offset).2.write bo out buflen offset).1 = offset + 20 ∧
    ((EVSMessage.read bo m0 buf buflen offset).2.write bo out buflen offset).2 offset =
      buf offset % 256 ∧
    ((EVSMessage.read bo m0 buf buflen offset).2.write bo out buflen offset).2 (offset + 1) =
      buf (offset + 1) % 256 % 16 ∧
    memcpy_from ((EVSMessage.read bo m0 buf buflen offset).2.write bo out buflen offset).2
      (offset + 2) 18 = memcpy_from buf (offset + 2) 18 ∧
    (buf (offset + 1) % 256 / 16 = 0 →
      memcpy_from ((EVSMessage.read bo m0 buf buflen offset).2.write bo out buflen offset).2
        offset 20 = memcpy_from buf offset 20) := by
  have ht : ((buf offset % 256) >>> 4) &&& 0xf = USER := by
    rw [tag_nibble_eq, htag]; rfl
  rw [read_user_eq bo m0 buf buflen offset ht hlen hsz]
  simp only []
  have hty : (userDecoded bo m0 buf offset).type = USER := ht
  have hver : (userDecoded bo m0 buf offset).version = buf offset % 256 % 16 :=
    and_0xf (buf offset % 256)
  have hsp : EVSMessage.safety_prefix (userDecoded bo m0 buf offset) =
      buf (offset + 1) % 256 % 16 := and_0xf (buf (offset + 1) % 256)
  have hsr : (userDecoded bo m0 buf offset).seq_range = buf (offset + 2) % 256 := rfl
  have hfl : (userDecoded bo m0 buf offset).flags = buf (offset + 3) % 256 := rfl
  have hseq : (userDecoded bo m0 buf offset).seq =
      uint32_of_bytes bo (memcpy_from buf (offset + 4) 4) := rfl
  have haru : (userDecoded bo m0 buf offset).aru_seq =
      uint32_of_bytes bo (memcpy_from buf (offset + 8) 4) := rfl
  have hview : (userDecoded bo m0 buf offset).source_view.uuid =
      memcpy_from buf (offset + 12) 8 := rfl
  have hvwf : (userDecoded bo m0 buf offset).source_view.wf := by
    refine ⟨by rw [hview, memcpy_from_length], fun b hb => ?_⟩
    rw [hview] at hb
    simp only [memcpy_from, List.mem_map, List.mem_range] at hb
    obtain ⟨i, -, rfl⟩ := hb
    exact Nat.mod_lt _ (by decide)
  rw [write_user_eq bo _ out buflen offset hty hlen hsz]
  simp only []
  have h0 : userImage bo (userDecoded bo m0 buf offset) out offset offset = buf offset % 256 := by
    rw [userImage_at0, hty, hver]
    unfold USER
    omega
  have h1 : userImage bo (userDecoded bo m0 buf offset) out offset (offset + 1) =
      buf (offset + 1) % 256 % 16 := by
    rw [userImage_at1, hsp]
    omega
  have h2 : memcpy_from (userImage bo (userDecoded bo m0 buf offset) out offset) (offset + 2) 18 =
      memcpy_from buf (offset + 2) 18 := by
    have e : (18 : Nat) = 1 + (1 + (4 + (4 + 8))) := rfl
    rw [e, memcpy_from_append, memcpy_from_append, memcpy_from_append, memcpy_from_append,
      memcpy_from_append, memcpy_from_append, memcpy_from_append, memcpy_from_append]
    simp only [memcpy_from_one, Nat.add_assoc, Nat.reduceAdd]
    rw [userImage_seq, userImage_aru, userImage_view bo _ out offset hvwf, userImage_at2,
      userImage_at3, hsr, hfl, hseq, haru, hview, uint32_bytes_of_bytes, uint32_bytes_of_bytes]
    simp only [Nat.mod_mod]
  refine ⟨trivial, trivial, h0, h1, h2, fun hn => ?_⟩
  have e : (20 : Nat) = 1 + (1 + 18) := rfl
  rw [e, memcpy_from_append, memcpy_from_append, memcpy_from_append, memcpy_from_append]
  simp only [memcpy_from_one, Nat.add_assoc, Nat.reduceAdd]
  rw [h0, h1, h2]
  have e1 : buf (offset + 1) % 256 % 16 % 256 = buf (offset + 1) % 256 := by omega
  rw [e1, Nat.mod_mod]

/-- C19 at a 20-byte buffer with version nibble 5 and upper nibble 7 in the safety
prefix byte: the first byte `0x05` is reproduced and the second byte `0x74` becomes
`0x04`. -/
theorem C19_write_undoes_read_witness :
    bufOf [0x05, 0x74, 3, 0, 0, 0, 0, 42, 0, 0, 0, 40, 1, 2, 3, 4, 5, 6, 7, 8] 0 % 256 / 16 = 0 ∧
    ((EVSMessage.read ByteOrder.big sampleFresh
      (bufOf [0x05, 0x74, 3, 0, 0, 0, 0, 42, 0, 0, 0, 40, 1, 2, 3, 4, 5, 6, 7, 8]) 20 0).2.write
      ByteOrder.big zeroBuf 20 0).2 0 = 0x05 ∧
    ((EVSMessage.read ByteOrder.big sampleFresh
      (bufOf [0x05, 0x74, 3, 0, 0, 0, 0, 42, 0, 0, 0, 40, 1, 2, 3, 4, 5, 6, 7, 8]) 20 0).2.write
      ByteOrder.big zeroBuf 20 0).2 (0 + 1) = 0x04 :=
  ⟨by decide,
    (C19_write_undoes_read ByteOrder.big sampleFresh
      (bufOf [0x05, 0x74, 3, 0, 0, 0, 0, 42, 0, 0, 0, 40, 1, 2, 3, 4, 5, 6, 7, 8]) zeroBuf 20 0
      (by decide) (by decide) (by decide)).2.2.1,
    (C19_write_undoes_read ByteOrder.big sampleFresh
      (bufOf [0x05, 0x74, 3, 0, 0, 0, 0, 42, 0, 0, 0, 40, 1, 2, 3, 4, 5, 6, 7, 8]) zeroBuf 20 0
      (by decide) (by decide) (by decide)).2.2.2.1⟩

/-! ## C12: duplicate entries in the collections -/

theorem map_insert_present (om : List (Address × EVSRange)) (e : Address × EVSRange)
    (h : e.1 ∈ om.map Prod.fst) : map_insert om e = (om, false) := by
  unfold map_insert
  rw [if_pos h]

theorem map_insert_absent (om : List (Address × EVSRange)) (e : Address × EVSRange)
    (h : e.1 ∉ om.map Prod.fst) : map_insert om e = (om ++ [e], true) := by
  unfold map_insert
  rw [if_neg h]

theorem set_insert_present (s : List Address) (pid : Address) (h : pid ∈ s) :
    set_insert s pid = (s, false) := by
  unfold set_insert
  rw [if_pos h]

theorem set_insert_absent (s : List Address) (pid : Address) (h : pid ∉ s) :
    set_insert s pid = (s ++ [pid], true) := by
  unfold set_insert
  rw [if_neg h]

/-- C12: on a message whose three collections are allocated, as the join/install
constructor leaves them, `add_operational_instance(pid, range)` throws exactly when
`pid` is a key of the operational map, `add_untrusted_instance(pid)` exactly when `pid`
is in the untrusted set and `add_unoperational_instance(pid)` exactly when `pid` is in
the unoperational set; a call that throws leaves the message as it was, so the entry
for `pid` keeps its range whatever range the second call brings; a call that succeeds
adds that one entry to its collection and changes no other member. -/
theorem C12_duplicate_insert_rejected (m : EVSMessage) (pid : Address) (range : EVSRange)
    (om : List (Address × EVSRange)) (us ns : List Address)
    (ho : m.oper_inst = some om) (hu : m.untr_inst = some us) (hn : m.unop_inst = some ns) :
    (((∃ e, (m.add_operational_instance pid range).1 = Except.error e) ↔
        pid ∈ om.map Prod.fst) ∧
      (pid ∈ om.map Prod.fst → (m.add_operational_instance pid range).2 = m) ∧
      (pid ∉ om.map Prod.fst →
        (m.add_operational_instance pid range).1 = Except.ok () ∧
        (m.add_operational_instance pid range).2 =
          { m with oper_inst := some (om ++ [(pid, range)]) })) ∧
    (((∃ e, (m.add_untrusted_instance pid).1 = Except.error e) ↔ pid ∈ us) ∧
      (pid ∈ us → (m.add_untrusted_instance pid).2 = m) ∧
      (pid ∉ us →
        (m.add_untrusted_instance pid).1 = Except.ok () ∧
        (m.add_untrusted_instance pid).2 = { m with untr_inst := some (us ++ [pid]) })) ∧
    (((∃ e, (m.add_unoperational_instance pid).1 = Except.error e) ↔ pid ∈ ns) ∧
      (pid ∈ ns → (m.add_unoperational_instance pid).2 = m) ∧
      (pid ∉ ns →
        (m.add_unoperational_instance pid).1 = Except.ok () ∧
        (m.add_unoperational_instance pid).2 = { m with unop_inst := some (ns ++ [pid]) })) := by
  refine ⟨?_, ?_, ?_⟩
  · unfold EVSMessage.add_operational_instance
    rw [ho]
    by_cases h : pid ∈ om.map Prod.fst
    · simp only [map_insert_present om (pid, range) h, h, if_true, not_true_eq_false,
        false_imp_iff, and_true, true_imp_iff, iff_true]
      refine ⟨⟨"", rfl⟩, ?_⟩
      rw [← ho]
    · simp only [map_insert_absent om (pid, range) h, h, Bool.true_eq_false, if_false,
        not_false_eq_true, false_imp_iff, true_imp_iff, true_and, and_true, iff_false]
      rintro ⟨e, he⟩
      cases he
  · unfold EVSMessage.add_untrusted_instance
    rw [hu]
    by_cases h : pid ∈ us
    · simp only [set_insert_present us pid h, h, if_true, not_true_eq_false,
        false_imp_iff, and_true, true_imp_iff, iff_true]
      refine ⟨⟨"", rfl⟩, ?_⟩
      rw [← hu]
    · simp only [set_insert_absent us pid h, h, Bool.true_eq_false, if_false,
        not_false_eq_true, false_imp_iff, true_imp_iff, true_and, and_true, iff_false]
      rintro ⟨e, he⟩
      cases he
  · unfold EVSMessage.add_unoperational_instance
    rw [hn]
    by_cases h : pid ∈ ns
    · simp only [set_insert_present ns pid h, h, if_true, not_true_eq_false,
        false_imp_iff, and_true, true_imp_iff, iff_true]
      refine ⟨⟨"", rfl⟩, ?_⟩
      rw [← hn]
    · simp only [set_insert_absent ns pid h, h, Bool.true_eq_false, if_false,
        not_false_eq_true, false_imp_iff, true_imp_iff, true_and, and_true, iff_false]
      rintro ⟨e, he⟩
      cases he

/-- C12 at the sample join message: the first insertion of `addrA` succeeds and gives
`sampleJoinA`; a second insertion of `addrA` with another range throws and leaves
`sampleJoinA`, range 1 .. 2 included, as it was. -/
theorem C12_duplicate_insert_rejected_witness :
    sampleJoin.oper_inst = some [] ∧
    sampleJoin.add_operational_instance addrA { low := 1, high := 2 } =
      (Except.ok (), sampleJoinA) ∧
    sampleJoinA.oper_inst = some [(addrA, { low := 1, high := 2 })] ∧
    (∃ e, (sampleJoinA.add_operational_instance addrA { low := 5, high := 6 }).1 =
      Except.error e) ∧
    (sampleJoinA.add_operational_instance addrA { low := 5, high := 6 }).2 = sampleJoinA :=
  ⟨rfl, rfl, rfl,
    (C12_duplicate_insert_rejected sampleJoinA addrA { low := 5, high := 6 }
      [(addrA, { low := 1, high := 2 })] [] [] rfl rfl rfl).1.1.2 (by decide),
    (C12_duplicate_insert_rejected sampleJoinA addrA { low := 5, high := 6 }
      [(addrA, { low := 1, high := 2 })] [] [] rfl rfl rfl).1.2.1 (by decide)⟩

/-! ## C16: comparison of view ids -/

theorem headD_eq_getD (l : List Nat) : l.headD 0 = l.getD 0 0 := by
  cases l <;> rfl

theorem tail_getD (l : List Nat) (i : Nat) : l.tail.getD i 0 = l.getD (i + 1) 0 := by
  cases l <;> simp

theorem memcmp_zero_iff (n : Nat) : ∀ a b : List Nat,
    memcmp a b n = 0 ↔ ∀ i, i < n → a.getD i 0 % 256 = b.getD i 0 % 256 := by
  induction n with
  | zero =>
    intro a b
    simp [memcmp]
  | succ n ih =>
    intro a b
    unfold memcmp
    rw [headD_eq_getD, headD_eq_getD]
    by_cases h : a.getD 0 0 % 256 = b.getD 0 0 % 256
    · rw [if_neg (by simpa using h), ih]
      constructor
      · intro hh i hi
        cases i with
        | zero => exact h
        | succ j =>
          have := hh j (by omega)
          rwa [tail_getD, tail_getD] at this
      · intro hh i hi
        rw [tail_getD, tail_getD]
        exact hh (i + 1) (by omega)
    · rw [if_pos h]
      constructor
      · intro hh
        omega
      · intro hh
        exact absurd (hh 0 (by omega)) h

theorem memcmp_neg_iff (n : Nat) : ∀ a b : List Nat,
    memcmp a b n < 0 ↔ ∃ k, k < n ∧ (∀ i, i < k → a.getD i 0 % 256 = b.getD i 0 % 256) ∧
      a.getD k 0 % 256 < b.getD k 0 % 256 := by
  induction n with
  | zero =>
    intro a b
    simp [memcmp]
  | succ n ih =>
    intro a b
    unfold memcmp
    rw [headD_eq_getD, headD_eq_getD]
    by_cases h : a.getD 0 0 % 256 = b.getD 0 0 % 256
    · rw [if_neg (by simpa using h), ih]
      constructor
      · rintro ⟨k, hk, hpre, hlt⟩
        refine ⟨k + 1, by omega, ?_, ?_⟩
        · intro i hi
          cases i with
          | zero => exact h
          | succ j =>
            have := hpre j (by omega)
            rwa [tail_getD, tail_getD] at this
        · rwa [tail_getD, tail_getD] at hlt
      · rintro ⟨k, hk, hpre, hlt⟩
        cases k with
        | zero => omega
        | succ j =>
          refine ⟨j, by omega, ?_, ?_⟩
          · intro i hi
            rw [tail_getD, tail_getD]
            exact hpre (i + 1) (by omega)
          · rwa [tail_getD, tail_getD]
    · rw [if_pos h]
      constructor
      · intro hh
        exact ⟨0, by omega, fun i hi => absurd hi (by omega), by omega⟩
      · rintro ⟨k, hk, hpre, hlt⟩
        cases k with
        | zero => omega
        | succ j => exact absurd (hpre 0 (by omega)) h

theorem memcmp_swap (n : Nat) : ∀ a b : List Nat, memcmp b a n = - memcmp a b n := by
  induction n with
  | zero =>
    intro a b
    simp [memcmp]
  | succ n ih =>
    intro a b
    unfold memcmp
    by_cases h : a.headD 0 % 256 = b.headD 0 % 256
    · rw [if_neg (by simpa using h.symm), if_neg (by simpa using h), ih]
    · rw [if_pos (fun hh => h hh.symm), if_pos h]
      omega

theorem memcmp_trans (n : Nat) : ∀ a b c : List Nat,
    memcmp a b n < 0 → memcmp b c n < 0 → memcmp a c n < 0 := by
  intro a b c hab hbc
  rw [memcmp_neg_iff] at hab hbc ⊢
  obtain ⟨k1, hk1, hp1, hl1⟩ := hab
  obtain ⟨k2, hk2, hp2, hl2⟩ := hbc
  rcases Nat.lt_trichotomy k1 k2 with h | h | h
  · refine ⟨k1, hk1, fun i hi => ?_, ?_⟩
    · rw [hp1 i hi, hp2 i (by omega)]
    · rw [← hp2 k1 h]
      exact hl1
  · subst h
    refine ⟨k1, hk1, fun i hi => ?_, by omega⟩
    rw [hp1 i hi, hp2 i hi]
  · refine ⟨k2, hk2, fun i hi => ?_, ?_⟩
    · rw [hp1 i (by omega), hp2 i hi]
    · rw [hp1 k2 h]
      exact hl2

theorem uuid_eq_of_bytes (a b : EVSViewId) (ha : a.wf) (hb : b.wf)
    (h : ∀ i, i < 8 → a.uuid.getD i 0 % 256 = b.uuid.getD i 0 % 256) : a.uuid = b.uuid := by
  apply List.ext_getElem
  · rw [ha.1, hb.1]
  · intro i h1 h2
    have hi : i < 8 := by rw [← ha.1]; exact h1
    have := h i hi
    rw [List.getD_eq_getElem _ _ h1, List.getD_eq_getElem _ _ h2,
      Nat.mod_eq_of_lt (ha.2 _ (List.getElem_mem h1)),
      Nat.mod_eq_of_lt (hb.2 _ (List.getElem_mem h2))] at this
    exact this

/-- C16: for view ids of eight bytes, `operator==` is true exactly when the eight bytes
are equal, and `operator<` is the lexicographic order of the eight bytes taken as
unsigned: it is decided by the first byte that differs; it is irreflexive and
transitive, and of `a < b`, `a == b`, `b < a` exactly one holds. -/
theorem C16_viewid_comparison (a b c : EVSViewId) (ha : a.wf) (hb : b.wf) :
    (a.eq b = true ↔ a.uuid = b.uuid) ∧
    (a.lt b = true ↔ ∃ k, k < 8 ∧ (∀ i, i < k → a.uuid.getD i 0 = b.uuid.getD i 0) ∧
      a.uuid.getD k 0 < b.uuid.getD k 0) ∧
    a.lt a = false ∧
    (a.lt b = true → b.lt c = true → a.lt c = true) ∧
    (a.lt b = true ∨ a.eq b = true ∨ b.lt a = true) ∧
    ¬ (a.lt b = true ∧ a.eq b = true) ∧
    ¬ (a.lt b = true ∧ b.lt a = true) ∧
    ¬ (a.eq b = true ∧ b.lt a = true) := by
  have hmodA : ∀ i, a.uuid.getD i 0 % 256 = a.uuid.getD i 0 := by
    intro i
    by_cases hi : i < a.uuid.length
    · rw [List.getD_eq_getElem _ _ hi]
      exact Nat.mod_eq_of_lt (ha.2 _ (List.getElem_mem hi))
    · rw [List.getD_eq_default _ _ (by omega)]
  have hmodB : ∀ i, b.uuid.getD i 0 % 256 = b.uuid.getD i 0 := by
    intro i
    by_cases hi : i < b.uuid.length
    · rw [List.getD_eq_getElem _ _ hi]
      exact Nat.mod_eq_of_lt (hb.2 _ (List.getElem_mem hi))
    · rw [List.getD_eq_default _ _ (by omega)]
  have hsw := memcmp_swap 8 a.uuid b.uuid
  unfold EVSViewId.lt EVSViewId.eq
  simp only [decide_eq_true_eq, decide_eq_false_iff_not]
  refine ⟨?_, ?_, ?_, ?_, ?_, ?_, ?_, ?_⟩
  · rw [memcmp_zero_iff]
    constructor
    · exact uuid_eq_of_bytes a b ha hb
    · intro h i _
      rw [h]
  · rw [memcmp_neg_iff]
    simp only [hmodA, hmodB]
  · have h0 : memcmp a.uuid a.uuid 8 = 0 := (memcmp_zero_iff 8 a.uuid a.uuid).2 (fun _ _ => rfl)
    omega
  · exact memcmp_trans 8 a.uuid b.uuid c.uuid
  · omega
  · omega
  · omega
  · omega

/-- C16 at the zero view id and the view id with sequence 7: they are not equal, the
zero one is the smaller, and not the other way round. -/
theorem C16_viewid_comparison_witness :
    EVSViewId.zero.wf ∧ (view7 ByteOrder.big).wf ∧
    (EVSViewId.zero.eq (view7 ByteOrder.big) = true ↔
      EVSViewId.zero.uuid = (view7 ByteOrder.big).uuid) ∧
    EVSViewId.zero.lt (view7 ByteOrder.big) = true ∧
    ¬ (EVSViewId.zero.lt (view7 ByteOrder.big) = true ∧
      (view7 ByteOrder.big).lt EVSViewId.zero = true) :=
  ⟨by decide, by decide,
    (C16_viewid_comparison EVSViewId.zero (view7 ByteOrder.big) EVSViewId.zero (by decide)
      (by decide)).1,
    by decide,
    (C16_viewid_comparison EVSViewId.zero (view7 ByteOrder.big) EVSViewId.zero (by decide)
      (by decide)).2.2.2.2.2.2.1⟩

/-! ## C17: the sequence inside a view id -/

theorem create_uuid (bo : ByteOrder) (raw : List Nat) (rnd : Nat) (sa : Address) (seq : Nat) :
    (EVSViewId.create bo raw rnd sa seq).uuid = uint32_bytes bo rnd ++ uint32_bytes bo seq := by
  unfold EVSViewId.create
  simp only []
  rw [write_uint32_ok _ _ _ _ _ (by omega), write_uint32_ok _ _ _ _ _ (by omega)]
  simp only []
  have e : (8 : Nat) = 4 + 4 := rfl
  rw [e, memcpy_from_append]
  have h1 := memcpy_from_to_same (bufOf raw) 0 (uint32_bytes bo rnd)
  have h2 := memcpy_from_to_same (memcpy_to (bufOf raw) 0 (uint32_bytes bo rnd)) 4
    (uint32_bytes bo seq)
  rw [uint32_bytes_length, map_mod_of_bytes _ (uint32_bytes_lt bo _)] at h1 h2
  rw [memcpy_from_to_disjoint _ _ _ _ _ (by simp), h1]
  simp only [Nat.zero_add]
  rw [h2]

theorem create_wf (bo : ByteOrder) (raw : List Nat) (rnd : Nat) (sa : Address) (seq : Nat) :
    (EVSViewId.create bo raw rnd sa seq).wf := by
  unfold EVSViewId.wf
  rw [create_uuid]
  refine ⟨by simp [uint32_bytes_length], fun b hb => ?_⟩
  rcases List.mem_append.mp hb with h | h
  · exact uint32_bytes_lt bo rnd b h
  · exact uint32_bytes_lt bo seq b h

theorem create_get_seq (bo : ByteOrder) (raw : List Nat) (rnd : Nat) (sa : Address) (seq : Nat) :
    (EVSViewId.create bo raw rnd sa seq).get_seq bo = Except.ok (seq % 2 ^ 32) := by
  unfold EVSViewId.get_seq
  rw [create_uuid, read_uint32_ok _ _ _ _ _ (by omega)]
  simp only [Nat.add_eq_zero, OfNat.ofNat_ne_zero, and_false, if_false]
  have h := memcpy_from_bufOf (uint32_bytes bo rnd) (uint32_bytes bo seq)
  rw [uint32_bytes_length, uint32_bytes_length, map_mod_of_bytes _ (uint32_bytes_lt bo _)] at h
  rw [h, uint32_of_bytes_bytes]

theorem viewid_write_ret (v : EVSViewId) (buf : Buf) (buflen offset : Nat) :
    (v.write buf buflen offset).1 ≠ 0 ↔
      (offset + 8) % SIZE_MOD ≤ buflen ∧ (offset + 8) % SIZE_MOD ≠ 0 := by
  unfold EVSViewId.write
  split_ifs with h
  · simp only [ne_eq, not_true_eq_false, false_iff, not_and]
    intro h2
    omega
  · simp only [ne_eq, iff_and_self]
    intro _
    omega

theorem viewid_read_ret (v : EVSViewId) (buf : Buf) (buflen offset : Nat) :
    (v.read buf buflen offset).1 ≠ 0 ↔
      (offset + 8) % SIZE_MOD ≤ buflen ∧ (offset + 8) % SIZE_MOD ≠ 0 := by
  unfold EVSViewId.read
  split_ifs with h
  · simp only [ne_eq, not_true_eq_false, false_iff, not_and]
    intro h2
    omega
  · simp only [ne_eq, iff_and_self]
    intro _
    omega

/-- C17, refuted as stated: at offset `2^64 - 4`, a value of `size_t`, with `buflen = 8`
the sum `offset + 8` wraps to 4, so the bound test of `write` and of `read` passes and
both return 4, a success, although `offset + 8 <= buflen` is false and the returned
offset is not `offset + 8`. -/
theorem C17_wrapped_offset_is_accepted :
    2 ^ 64 - 4 < SIZE_MOD ∧
    ¬ (2 ^ 64 - 4 + 8 ≤ 8) ∧
    (sampleView.write zeroBuf 8 (2 ^ 64 - 4)).1 = 4 ∧
    (sampleView.write zeroBuf 8 (2 ^ 64 - 4)).1 ≠ 0 ∧
    (sampleView.write zeroBuf 8 (2 ^ 64 - 4)).1 ≠ 2 ^ 64 - 4 + 8 ∧
    (EVSViewId.zero.read zeroBuf 8 (2 ^ 64 - 4)).1 = 4 ∧
    (EVSViewId.zero.read zeroBuf 8 (2 ^ 64 - 4)).1 ≠ 0 := by
  have hw : (sampleView.write zeroBuf 8 (2 ^ 64 - 4)).1 = 4 := by
    unfold EVSViewId.write SIZE_MOD
    rw [if_neg (by decide)]
    decide
  have hr : (EVSViewId.zero.read zeroBuf 8 (2 ^ 64 - 4)).1 = 4 := by
    unfold EVSViewId.read SIZE_MOD
    rw [if_neg (by decide)]
    decide
  rw [hw, hr]
  unfold SIZE_MOD
  decide

/-- C17, amended: for every proposer address, every 32-bit `seq`, every value of
`::rand()` and every content of the array before construction, the view id
`EVSViewId(proposer, seq)` has eight bytes and its `get_seq()` returns `seq` without
throwing. `write` and `read` both test the sum `offset + 8` as `size_t` computes it:
each succeeds exactly when `(offset + 8) mod 2^64` is not 0 and at most `buflen`. At
every offset on which the sum does not wrap (`offset + 8 < 2^64`), each succeeds exactly
when `offset + 8 <= buflen`, and on a shorter buffer `write` returns 0 with the buffer
untouched and `read` returns 0 with the object untouched. When `offset + 8 <= buflen`,
`write` returns `offset + 8` and stores the eight raw bytes and nothing else, and `read`
of the written buffer returns `offset + 8` and yields the original view id: it is `==`
to it and has the same `get_seq()`. -/
theorem C17_viewid_embeds_seq (bo : ByteOrder) (raw : List Nat) (rnd : Nat) (sa : Address)
    (seq : Nat) (v0 : EVSViewId) (buf : Buf) (buflen offset : Nat)
    (hseq : seq < 2 ^ 32) (hsz : buflen < SIZE_MOD) :
    (EVSViewId.create bo raw rnd sa seq).wf ∧
    (EVSViewId.create bo raw rnd sa seq).get_seq bo = Except.ok seq ∧
    (((EVSViewId.create bo raw rnd sa seq).write buf buflen offset).1 ≠ 0 ↔
      (offset + 8) % SIZE_MOD ≤ buflen ∧ (offset + 8) % SIZE_MOD ≠ 0) ∧
    ((v0.read buf buflen offset).1 ≠ 0 ↔
      (offset + 8) % SIZE_MOD ≤ buflen ∧ (offset + 8) % SIZE_MOD ≠ 0) ∧
    (offset + 8 < SIZE_MOD →
      (((EVSViewId.create bo raw rnd sa seq).write buf buflen offset).1 ≠ 0 ↔
        offset + 8 ≤ buflen) ∧
      ((v0.read buf buflen offset).1 ≠ 0 ↔ offset + 8 ≤ buflen) ∧
      (buflen < offset + 8 →
        (EVSViewId.create bo raw rnd sa seq).write buf buflen offset = (0, buf) ∧
        v0.read buf buflen offset = (0, v0))) ∧
    (offset + 8 ≤ buflen →
      ((EVSViewId.create bo raw rnd sa seq).write buf buflen offset).1 = offset + 8 ∧
      memcpy_from ((EVSViewId.create bo raw rnd sa seq).write buf buflen offset).2 offset 8 =
        (EVSViewId.create bo raw rnd sa seq).uuid ∧
      (∀ i, i < offset ∨ offset + 8 ≤ i →
        ((EVSViewId.create bo raw rnd sa seq).write buf buflen offset).2 i = buf i) ∧
      (v0.read buf buflen offset).1 = offset + 8 ∧
      (v0.read buf buflen offset).2.uuid = memcpy_from buf offset 8 ∧
      (v0.read ((EVSViewId.create bo raw rnd sa seq).write buf buflen offset).2 buflen
        offset).1 = offset + 8 ∧
      (v0.read ((EVSViewId.create bo raw rnd sa seq).write buf buflen offset).2 buflen
        offset).2 = EVSViewId.create bo raw rnd sa seq ∧
      (v0.read ((EVSViewId.create bo raw rnd sa seq).write buf buflen offset).2 buflen
        offset).2.eq (EVSViewId.create bo raw rnd sa seq) = true ∧
      (v0.read ((EVSViewId.create bo raw rnd sa seq).write buf buflen offset).2 buflen
        offset).2.get_seq bo = Except.ok seq) := by
  have hwf := create_wf bo raw rnd sa seq
  have hget : (EVSViewId.create bo raw rnd sa seq).get_seq bo = Except.ok seq := by
    rw [create_get_seq, Nat.mod_eq_of_lt hseq]
  have htake : (EVSViewId.create bo raw rnd sa seq).uuid.take 8 =
      (EVSViewId.create bo raw rnd sa seq).uuid := List.take_of_length_le (le_of_eq hwf.1)
  refine ⟨hwf, hget, viewid_write_ret _ buf buflen offset, viewid_read_ret v0 buf buflen offset,
    ?_, ?_⟩
  · intro hoff
    refine ⟨?_, ?_, ?_⟩
    · rw [viewid_write_ret, Nat.mod_eq_of_lt hoff]
      constructor
      · exact fun h => h.1
      · exact fun h => ⟨h, by omega⟩
    · rw [viewid_read_ret, Nat.mod_eq_of_lt hoff]
      constructor
      · exact fun h => h.1
      · exact fun h => ⟨h, by omega⟩
    · intro hshort
      exact ⟨viewid_write_fail _ _ _ _ hshort hoff, viewid_read_fail _ _ _ _ hshort hoff⟩
  · intro h
    have hsame := memcpy_from_to_same buf offset ((EVSViewId.create bo raw rnd sa seq).uuid.take 8)
    rw [htake, hwf.1, map_mod_of_bytes _ hwf.2] at hsame
    have hback : v0.read ((EVSViewId.create bo raw rnd sa seq).write buf buflen offset).2 buflen
        offset = (offset + 8, EVSViewId.create bo raw rnd sa seq) := by
      rw [viewid_write_ok _ _ _ _ h hsz, viewid_read_ok _ _ _ _ h hsz, htake]
      simp only []
      rw [hsame]
    rw [hback, viewid_write_ok _ _ _ _ h hsz, viewid_read_ok v0 _ _ _ h hsz, htake]
    simp only []
    refine ⟨by trivial, hsame, fun i hi => ?_, by trivial, by trivial, by trivial, by trivial,
      ?_, hget⟩
    · exact memcpy_to_outside _ _ _ _ (by rw [hwf.1]; exact hi)
    · unfold EVSViewId.eq
      simp only [decide_eq_true_eq]
      exact (memcmp_zero_iff 8 _ _).2 (fun _ _ => rfl)

/-- C17 amended, at sequence 7 with `::rand()` returning `0x12345678`: the bytes of the
view id and its sequence; written at offset 4 of a 16-byte buffer and read back into a
zero view id it comes back whole, `==` to the original and with sequence 7; on a
7-byte buffer at offset 0 both `write` and `read` are refused. -/
theorem C17_viewid_embeds_seq_witness :
    (7 : Nat) < 2 ^ 32 ∧ (16 : Nat) < SIZE_MOD ∧ 4 + 8 ≤ 16 ∧
    sampleView.uuid = [0x12, 0x34, 0x56, 0x78, 0, 0, 0, 7] ∧
    sampleView.get_seq ByteOrder.big = Except.ok 7 ∧
    (sampleView.write zeroBuf 16 4).1 = 4 + 8 ∧
    (EVSViewId.zero.read (sampleView.write zeroBuf 16 4).2 16 4).1 = 4 + 8 ∧
    (EVSViewId.zero.read (sampleView.write zeroBuf 16 4).2 16 4).2 = sampleView ∧
    (EVSViewId.zero.read (sampleView.write zeroBuf 16 4).2 16 4).2.eq sampleView = true ∧
    (EVSViewId.zero.read (sampleView.write zeroBuf 16 4).2 16 4).2.get_seq ByteOrder.big =
      Except.ok 7 ∧
    sampleView.write zeroBuf 7 0 = (0, zeroBuf) ∧
    EVSViewId.zero.read zeroBuf 7 0 = (0, EVSViewId.zero) ∧
    ¬ (EVSViewId.zero.read zeroBuf 7 0).1 ≠ 0 :=
  ⟨by decide, by decide, by decide, by decide,
    (C17_viewid_embeds_seq ByteOrder.big [9, 9, 9, 9, 9, 9, 9, 9] 0x12345678 addrA 7
      EVSViewId.zero zeroBuf 16 4 (by decide) (by decide)).2.1,
    ((C17_viewid_embeds_seq ByteOrder.big [9, 9, 9, 9, 9, 9, 9, 9] 0x12345678 addrA 7
      EVSViewId.zero zeroBuf 16 4 (by decide) (by decide)).2.2.2.2.2 (by decide)).1,
    ((C17_viewid_embeds_seq ByteOrder.big [9, 9, 9, 9, 9, 9, 9, 9] 0x12345678 addrA 7
      EVSViewId.zero zeroBuf 16 4 (by decide) (by decide)).2.2.2.2.2 (by decide)).2.2.2.2.2.1,
    ((C17_viewid_embeds_seq ByteOrder.big [9, 9, 9, 9, 9, 9, 9, 9] 0x12345678 addrA 7
      EVSViewId.zero zeroBuf 16 4 (by decide) (by decide)).2.2.2.2.2 (by decide)).2.2.2.2.2.2.1,
    ((C17_viewid_embeds_seq ByteOrder.big [9, 9, 9, 9, 9, 9, 9, 9] 0x12345678 addrA 7
      EVSViewId.zero zeroBuf 16 4 (by decide) (by decide)).2.2.2.2.2
      (by decide)).2.2.2.2.2.2.2.1,
    ((C17_viewid_embeds_seq ByteOrder.big [9, 9, 9, 9, 9, 9, 9, 9] 0x12345678 addrA 7
      EVSViewId.zero zeroBuf 16 4 (by decide) (by decide)).2.2.2.2.2
      (by decide)).2.2.2.2.2.2.2.2,
    (((C17_viewid_embeds_seq ByteOrder.big [9, 9, 9, 9, 9, 9, 9, 9] 0x12345678 addrA 7
      EVSViewId.zero zeroBuf 7 0 (by decide) (by decide)).2.2.2.2.1 (by decide)).2.2
      (by decide)).1,
    (((C17_viewid_embeds_seq ByteOrder.big [9, 9, 9, 9, 9, 9, 9, 9] 0x12345678 addrA 7
      EVSViewId.zero zeroBuf 7 0 (by decide) (by decide)).2.2.2.2.1 (by decide)).2.2
      (by decide)).2,
    fun h => absurd (((C17_viewid_embeds_seq ByteOrder.big [9, 9, 9, 9, 9, 9, 9, 9] 0x12345678
      addrA 7 EVSViewId.zero zeroBuf 7 0 (by decide) (by decide)).2.2.2.2.1
      (by decide)).2.1.1 h) (by decide)⟩

end Evs
